import Mathlib

/-!
# Verification of the techpulse-rss-ai article storage engine

Shallow embedding of `src/api/utils/feedStorage.ts` (the v2, time-partitioned
store: the second half of the file, lines 282-984) together with the relevant
HTTP route handlers of the feeds router (`src/unnamed/part_004`:
`router.post('/save')` and `router.delete('/clear')`).

Modelling conventions:
* JavaScript `Date` values are modelled by `DateM` (UTC calendar date:
  year/month/day).  The code only ever inspects dates through
  `toISOString().slice(0, 7)` (month key), `getDate`/`getDay` (week-of-month)
  and `getTime` comparisons (sorting), all of which are derived below.
  The process is assumed to run with a UTC clock, so `new Date(y, m, 1)`
  and `toISOString` agree on the calendar date.
* JavaScript objects used as string-keyed dictionaries
  (`urlIndex`, `stats.byCategory`, `stats.bySource`, `stats.byMonth`, and the
  on-disk directory layout) are modelled as association lists in insertion
  order; JS object keys are unique, which the operations below preserve, and
  every operation acts on the first (hence only) matching key.
* `Array.prototype.sort` with a numeric comparator is modelled by the stable
  `List.insertionSort` (ES2019 guarantees a stable sort; for a total preorder
  the stable sorted permutation is unique).
* `lastUpdated` timestamp strings and the unread enrichment fields
  (`summary`, `keyPoints`, `catchyTitle`) are omitted: no operation ever
  reads them.
* `SavedArticle.title` is `Option String`: the TypeScript interface declares
  `string`, but the `/save` route maps untyped JSON (`articles.map((a: any)
  => ...)`) straight into the store, so a missing `title` flows through as
  `undefined` and is never read by any storage operation.  `link` is kept
  mandatory (`String`): it is the business key required of every candidate
  record (a runtime-`undefined` link would throw a `TypeError` inside
  `generateArticleId`, aborting the call).
-/

namespace FeedStorage

/-- A UTC calendar date; the model of a JS `Date` as used by the store. -/
structure DateM where
  year : Nat
  month : Nat
  day : Nat
deriving DecidableEq, Repr

/-- Zero-pad a number to two digits, as `String(n).padStart(2, '0')`. -/
def pad2 (n : Nat) : String :=
  if n < 10 then "0" ++ toString n else toString n

/-- `getMonthKey`: `date.toISOString().slice(0, 7)`, i.e. `"YYYY-MM"`. -/
def getMonthKey (d : DateM) : String :=
  toString d.year ++ "-" ++ pad2 d.month

/-- JS `Date.prototype.getDay` (0 = Sunday) via Zeller's congruence. -/
def dayOfWeek (y m q : Nat) : Nat :=
  let m' := if m < 3 then m + 12 else m
  let y' := if m < 3 then y - 1 else y
  let K := y' % 100
  let J := y' / 100
  let h := (q + (13 * (m' + 1)) / 5 + K + K / 4 + J / 4 + 5 * J) % 7
  (h + 6) % 7

/-- `getWeekOfMonth`: `Math.ceil((date.getDate() + firstDay.getDay()) / 7)`
where `firstDay` is the first of the same month. -/
def getWeekOfMonth (d : DateM) : Nat :=
  (d.day + dayOfWeek d.year d.month 1 + 6) / 7

/-- Chronological order on dates, as compared by `getTime()`. -/
def dateLe (a b : DateM) : Bool :=
  if a.year ≠ b.year then decide (a.year < b.year)
  else if a.month ≠ b.month then decide (a.month < b.month)
  else decide (a.day ≤ b.day)

/-- The month key of `new Date(now.getFullYear(), now.getMonth() - 1, 1)`
(JS rolls month `-1` over to December of the previous year). -/
def prevMonthKey (now : DateM) : String :=
  if now.month = 1 then getMonthKey ⟨now.year - 1, 12, 1⟩
  else getMonthKey ⟨now.year, now.month - 1, 1⟩

/-- `savedBy: 'manual' | 'auto'`. -/
inductive SavedBy where
  | manual
  | auto
deriving DecidableEq, Repr

/-- The stored record (`SavedArticle` interface).  See the module comment for
why `title` is `Option String` and the enrichment fields are omitted. -/
structure SavedArticle where
  id : String
  title : Option String
  link : String
  description : String
  source : String
  pubDate : String
  category : String
  savedAt : DateM
  savedBy : SavedBy
deriving DecidableEq, Repr

/-- A candidate record (`Omit<SavedArticle, 'id' | 'savedAt'>`); the
`savedBy` field of the input object is overridden by the `savedBy` parameter
of `saveArticles`, so it is not modelled. -/
structure InputArticle where
  title : Option String
  link : String
  description : String
  source : String
  pubDate : String
  category : String
deriving DecidableEq, Repr

/-- A current-month or archive-week document (`MonthFile`), minus the unread
`lastUpdated` field. -/
structure MonthFile where
  month : String
  articles : List SavedArticle
deriving DecidableEq, Repr

/-- One `urlIndex` entry: `{ fileDate, savedAt }`. -/
structure UrlEntry where
  fileDate : String
  savedAt : DateM
deriving DecidableEq, Repr

/-- One entry of `index.archives`: `{ month, weeks, articleCount }`. -/
structure ArchiveEntry where
  month : String
  weeks : List String
  articleCount : Nat
deriving DecidableEq, Repr

/-- A JS `Record<string, number>` stat map, in insertion order. -/
abbrev StatMap := List (String × Int)

/-- Reading a stat entry with JS's `obj[k] || 0` default. -/
def lookupD (m : StatMap) (k : String) : Int :=
  ((m.find? (fun p => p.1 == k)).map Prod.snd).getD 0

/-- `acc[k] = (acc[k] || 0) + 1`: bump the (unique) entry for `k`, or append a
fresh entry in insertion order. -/
def incr : StatMap → String → StatMap
  | [], k => [(k, 1)]
  | (k', v) :: rest, k =>
    if k' == k then (k', v + 1) :: rest else (k', v) :: incr rest k

/-- The deletion pattern of `deleteArticle`:
`if (m[k]) { m[k]--; if (m[k] === 0) delete m[k]; }` —
a missing key or a stored `0` is falsy and leaves the map unchanged. -/
def decrDel : StatMap → String → StatMap
  | [], _ => []
  | (k', v) :: rest, k =>
    if k' == k then
      if v == 0 then (k', v) :: rest
      else if v - 1 == 0 then rest else (k', v - 1) :: rest
    else (k', v) :: decrDel rest k

/-- Sum of the values of a stat map (`sum(map.values())`). -/
def sumVals (m : StatMap) : Int :=
  (m.map Prod.snd).sum

/-- The dedup index `urlIndex : Record<string, {fileDate, savedAt}>`. -/
abbrev UrlIndex := List (String × UrlEntry)

/-- `link in index.urlIndex`. -/
def hasKey (u : UrlIndex) (k : String) : Bool :=
  u.any (fun p => p.1 == k)

/-- `delete index.urlIndex[k]`; JS keys are unique, so removing every entry
with key `k` coincides with removing the single one. -/
def removeKey (u : UrlIndex) (k : String) : UrlIndex :=
  u.filter (fun p => !(p.1 == k))

/-- The `index.json` document (`IndexData`), minus `version`/`lastUpdated`
(never read by any operation). -/
structure Stats where
  byCategory : StatMap
  bySource : StatMap
  byMonth : StatMap
deriving DecidableEq, Repr

structure IndexData where
  totalArticles : Int
  urlIndex : UrlIndex
  stats : Stats
  archives : List ArchiveEntry
deriving DecidableEq, Repr

/-- The fresh index written by `initStorage` / `clearAllArticles`. -/
def freshIndex : IndexData :=
  { totalArticles := 0
    urlIndex := []
    stats := { byCategory := [], bySource := [], byMonth := [] }
    archives := [] }

/-- An archive month directory: week file name ↦ document. -/
abbrev ArchiveDir := List (String × MonthFile)

/-- The `data/archives/` tree: month key ↦ directory. -/
abbrev ArchiveFS := List (String × ArchiveDir)

/-- First-match association lookup (JS property read). -/
def alookup {β : Type} (l : List (String × β)) (k : String) : Option β :=
  (l.find? (fun p => p.1 == k)).map Prod.snd

/-- Overwrite the (unique) entry for `k`, or append it: JS property write /
`fs.writeFileSync` into a directory. -/
def aset {β : Type} (l : List (String × β)) (k : String) (v : β) :
    List (String × β) :=
  match l with
  | [] => [(k, v)]
  | (k', v') :: rest =>
    if k' == k then (k, v) :: rest else (k', v') :: aset rest k v

/-- The whole persistent state of the store: `index.json`,
`current/articles.json`, and the `archives/` tree. -/
structure StoreState where
  index : IndexData
  current : MonthFile
  archives : ArchiveFS
deriving DecidableEq, Repr

/-- The state created by `initStorage` on first run (fresh index, empty
current file stamped with the current month). -/
def initialState (now : DateM) : StoreState :=
  { index := freshIndex
    current := { month := getMonthKey now, articles := [] }
    archives := [] }

/-! ## Identifier and slug utilities -/

/-- Signed 32-bit wrap-around (`hash & hash` after JS `ToInt32` coercion). -/
def wrap32 (n : Int) : Int :=
  (n + 2 ^ 31) % 2 ^ 32 - 2 ^ 31

/-- One step of the rolling hash:
`hash = (((hash << 5) - hash) + char) & hash-width` — `<< 5` coerces to
int32 before the subtraction, and the final `& hash` coerces the sum. -/
def hashStep (h : Int) (c : Nat) : Int :=
  wrap32 (wrap32 (h * 32) - h + c)

/-- The rolling hash of `generateArticleId` over the UTF-16 code units of the
link (links are ASCII URLs, where code units and code points coincide). -/
def jsHash (s : String) : Int :=
  (s.data.map Char.toNat).foldl hashStep 0

/-- Base-36 digit, as produced by `Number.prototype.toString(36)`. -/
def b36digit (n : Nat) : Char :=
  if n < 10 then Char.ofNat (48 + n) else Char.ofNat (87 + n)

/-- Repeated div-mod digit extraction; the first argument is fuel (`n + 1`
is always enough, since the value shrinks by a factor of 36 each step). -/
def toBase36Go : Nat → Nat → List Char → List Char
  | 0, _, acc => acc
  | fuel + 1, n, acc =>
    if n < 36 then b36digit n :: acc
    else toBase36Go fuel (n / 36) (b36digit (n % 36) :: acc)

/-- `Math.abs(hash).toString(36)`. -/
def toBase36 (n : Nat) : String :=
  String.mk (toBase36Go (n + 1) n [])

/-- `generateArticleId`: `` `art_${Math.abs(hash).toString(36)}` ``. -/
def generateArticleId (link : String) : String :=
  "art_" ++ toBase36 (jsHash link).natAbs

/-- `String.prototype.toLowerCase`, modelled for the ASCII and Latin-1
letters (the character repertoire of this system's category names):
`A`-`Z` and `À`-`Þ` (minus `×`) map down by 0x20; everything else is fixed. -/
def jsToLower (c : Char) : Char :=
  let n := c.toNat
  if 65 ≤ n ∧ n ≤ 90 then Char.ofNat (n + 32)
  else if (192 ≤ n ∧ n ≤ 222) ∧ n ≠ 215 then Char.ofNat (n + 32)
  else c

/-- `normalize('NFD')` for the lowercase Latin-1 letters (the only accented
characters reachable after `toLowerCase` above): each decomposes into its
base letter followed by a combining mark in U+0300-U+036F. -/
def nfdDecompose (c : Char) : List Char :=
  let n := c.toNat
  let comb (b : Char) (m : Nat) : List Char := [b, Char.ofNat m]
  if n = 224 then comb 'a' 0x300 else if n = 225 then comb 'a' 0x301
  else if n = 226 then comb 'a' 0x302 else if n = 227 then comb 'a' 0x303
  else if n = 228 then comb 'a' 0x308 else if n = 229 then comb 'a' 0x30A
  else if n = 231 then comb 'c' 0x327
  else if n = 232 then comb 'e' 0x300 else if n = 233 then comb 'e' 0x301
  else if n = 234 then comb 'e' 0x302 else if n = 235 then comb 'e' 0x308
  else if n = 236 then comb 'i' 0x300 else if n = 237 then comb 'i' 0x301
  else if n = 238 then comb 'i' 0x302 else if n = 239 then comb 'i' 0x308
  else if n = 241 then comb 'n' 0x303
  else if n = 242 then comb 'o' 0x300 else if n = 243 then comb 'o' 0x301
  else if n = 244 then comb 'o' 0x302 else if n = 245 then comb 'o' 0x303
  else if n = 246 then comb 'o' 0x308
  else if n = 249 then comb 'u' 0x300 else if n = 250 then comb 'u' 0x301
  else if n = 251 then comb 'u' 0x302 else if n = 252 then comb 'u' 0x308
  else if n = 253 then comb 'y' 0x301 else if n = 255 then comb 'y' 0x308
  else [c]

def isAlnumLower (c : Char) : Bool :=
  (97 ≤ c.toNat && c.toNat ≤ 122) || (48 ≤ c.toNat && c.toNat ≤ 57)

/-- `replace(/[^a-z0-9]+/g, '-')`: collapse each maximal run of
non-alphanumerics into a single `-`.  The flag records whether the previous
character belonged to such a run. -/
def collapseRuns : Bool → List Char → List Char
  | _, [] => []
  | inRun, c :: rest =>
    if isAlnumLower c then c :: collapseRuns false rest
    else if inRun then collapseRuns true rest
    else '-' :: collapseRuns true rest

/-- `replace(/(^-|-$)/g, '')`: removes one leading and one trailing hyphen
(after run collapsing at most one of each can exist). -/
def trimHyphens (l : List Char) : List Char :=
  let l' := match l with
    | '-' :: rest => rest
    | other => other
  match l'.reverse with
  | '-' :: rest => rest.reverse
  | _ => l'

/-- `slugifyCategory`: lowercase, NFD-decompose, strip combining marks
U+0300-U+036F, collapse non-alphanumeric runs to `-`, trim edge hyphens. -/
def slugifyCategory (category : String) : String :=
  let lowered := category.data.map jsToLower
  let decomposed := (lowered.map nfdDecompose).flatten
  let stripped := decomposed.filter
    (fun c => !(0x300 ≤ c.toNat && c.toNat ≤ 0x36F))
  String.mk (trimHyphens (collapseRuns false stripped))

/-! ## Store facade: `saveArticles` -/

/-- The `{ saved, duplicates, total }` result of `saveArticles`. -/
structure SaveResult where
  saved : Nat
  duplicates : Nat
  total : Int
deriving DecidableEq, Repr

/-- The article actually stored for a candidate:
`{ ...article, id: generateArticleId(article.link), savedAt: now, savedBy }`. -/
def mkSaved (a : InputArticle) (now : DateM) (sb : SavedBy) : SavedArticle :=
  { id := generateArticleId a.link
    title := a.title
    link := a.link
    description := a.description
    source := a.source
    pubDate := a.pubDate
    category := a.category
    savedAt := now
    savedBy := sb }

/-- The in-memory data mutated by the `for` loop of `saveArticles`. -/
structure LoopState where
  idx : IndexData
  arts : List SavedArticle
  saved : Nat
  dups : Nat
deriving Repr

/-- The index mutations performed for one newly saved article: dedup entry,
the three stat bumps, and `totalArticles++`. -/
def addArticleIdx (idx : IndexData) (a : InputArticle) (now : DateM) :
    IndexData :=
  { idx with
    urlIndex := idx.urlIndex ++ [(a.link, ⟨getMonthKey now, now⟩)]
    stats :=
      { byCategory := incr idx.stats.byCategory a.category
        bySource := incr idx.stats.bySource a.source
        byMonth := incr idx.stats.byMonth (getMonthKey now) }
    totalArticles := idx.totalArticles + 1 }

/-- The `for (const article of articles)` loop.  Besides the final loop state
it returns, per candidate, whether it was newly saved (`true`) or counted as
a duplicate (`false`). -/
def saveLoop (now : DateM) (sb : SavedBy) :
    List InputArticle → LoopState → LoopState × List Bool
  | [], ls => (ls, [])
  | a :: rest, ls =>
    if hasKey ls.idx.urlIndex a.link then
      let (ls', cs) := saveLoop now sb rest { ls with dups := ls.dups + 1 }
      (ls', false :: cs)
    else
      let ls1 : LoopState :=
        { idx := addArticleIdx ls.idx a now
          arts := ls.arts ++ [mkSaved a now sb]
          saved := ls.saved + 1
          dups := ls.dups }
      let (ls', cs) := saveLoop now sb rest ls1
      (ls', true :: cs)

/-- The descending `savedAt` sort:
`sort((a, b) => new Date(b.savedAt).getTime() - new Date(a.savedAt).getTime())`. -/
def sortBySavedAtDesc (arts : List SavedArticle) : List SavedArticle :=
  arts.insertionSort (fun x y => dateLe y.savedAt x.savedAt)

/-- `saveArticles(articles, savedBy)`: dedup each candidate against the
URL index, register new ones, then (when at least one was saved) re-sort and
stamp the current file and persist.  Returns the result plus the new state. -/
def saveArticles (articles : List InputArticle) (sb : SavedBy) (now : DateM)
    (s : StoreState) : SaveResult × StoreState :=
  let ls0 : LoopState :=
    { idx := s.index, arts := s.current.articles, saved := 0, dups := 0 }
  let (ls, _) := saveLoop now sb articles ls0
  let res : SaveResult :=
    { saved := ls.saved, duplicates := ls.dups, total := ls.idx.totalArticles }
  if ls.saved > 0 then
    (res,
      { s with
        index := ls.idx
        current :=
          { month := getMonthKey now, articles := sortBySavedAtDesc ls.arts } })
  else (res, s)

/-- The saved/duplicate classification a call to `saveArticles` gives each
candidate, in batch order (`true` = newly saved). -/
def saveClassification (articles : List InputArticle) (sb : SavedBy)
    (now : DateM) (s : StoreState) : List Bool :=
  (saveLoop now sb articles
    { idx := s.index, arts := s.current.articles, saved := 0, dups := 0 }).2

/-! ## Archiver: `archivePreviousMonth` -/

/-- The `{ archived, month }` result. -/
structure ArchResult where
  archived : Nat
  month : String
deriving DecidableEq, Repr

/-- Insert into an ascending duplicate-free list of week numbers. -/
def insertAsc (n : Nat) : List Nat → List Nat
  | [] => [n]
  | m :: rest =>
    if n < m then n :: m :: rest
    else if n = m then m :: rest
    else m :: insertAsc n rest

/-- The distinct week numbers occurring among `prevMonthArticles`, ascending:
`Object.entries(byWeek)` enumerates the integer-like keys of the `byWeek`
object in ascending numeric order. -/
def weekNumsOf (arts : List SavedArticle) : List Nat :=
  arts.foldl (fun acc a => insertAsc (getWeekOfMonth a.savedAt) acc) []

/-- `` `week-${String(weekNum).padStart(2, '0')}.json` ``. -/
def weekFileName (w : Nat) : String :=
  "week-" ++ pad2 w ++ ".json"

/-- Replace the first entry satisfying `p` (JS mutates the object returned by
`Array.prototype.find`; months in `index.archives` are unique). -/
def updateFirst {α : Type} (p : α → Bool) (f : α → α) : List α → List α
  | [] => []
  | x :: rest => if p x then f x :: rest else x :: updateFirst p f rest

/-- The descending-month sort of `index.archives`
(`sort((a, b) => b.month.localeCompare(a.month))`; month keys are ASCII, so
`localeCompare` agrees with lexicographic order). -/
def sortArchivesDesc (l : List ArchiveEntry) : List ArchiveEntry :=
  l.insertionSort (fun a b => b.month ≤ a.month)

/-- The current-file records whose `savedAt` month is the previous month. -/
def prevMonthArticles (now : DateM) (s : StoreState) : List SavedArticle :=
  s.current.articles.filter
    (fun a => getMonthKey a.savedAt == prevMonthKey now)

/-- The current-file records whose `savedAt` month is the current month. -/
def currentMonthArticles (now : DateM) (s : StoreState) : List SavedArticle :=
  s.current.articles.filter
    (fun a => getMonthKey a.savedAt == getMonthKey now)

/-- The archive document written for week `w` of the previous month. -/
def weekFileOf (prevKey : String) (prevArts : List SavedArticle) (w : Nat) :
    MonthFile :=
  { month := prevKey
    articles := prevArts.filter (fun a => getWeekOfMonth a.savedAt == w) }

/-- One `saveArticlesFile` per occupied week, into the (possibly existing)
month directory, overwriting files of the same name. -/
def writeWeekFiles (prevKey : String) (prevArts : List SavedArticle)
    (dir0 : ArchiveDir) : ArchiveDir :=
  (weekNumsOf prevArts).foldl
    (fun d w => aset d (weekFileName w) (weekFileOf prevKey prevArts w)) dir0

/-- The `index.archives` update: overwrite the weeks and count of an existing
entry for the month, or push a new entry and re-sort by month descending. -/
def updatedIndexArchives (idx : IndexData) (prevKey : String)
    (weekFiles : List String) (count : Nat) : List ArchiveEntry :=
  if idx.archives.any (fun e => e.month == prevKey) then
    updateFirst (fun e => e.month == prevKey)
      (fun e => { e with weeks := weekFiles, articleCount := count })
      idx.archives
  else
    sortArchivesDesc (idx.archives
      ++ [{ month := prevKey, weeks := weekFiles, articleCount := count }])

/-- The state produced by a non-trivial archive run. -/
def archiveApply (now : DateM) (s : StoreState) : StoreState :=
  let prevKey := prevMonthKey now
  let prevArts := prevMonthArticles now s
  let dir' := writeWeekFiles prevKey prevArts ((alookup s.archives prevKey).getD [])
  { index :=
      { s.index with
        archives := updatedIndexArchives s.index prevKey
          ((weekNumsOf prevArts).map weekFileName) prevArts.length }
    current :=
      { month := getMonthKey now, articles := currentMonthArticles now s }
    archives := aset s.archives prevKey dir' }

/-- `archivePreviousMonth()`: split the current file by month key; when no
record belongs to the previous month return `null` untouched, otherwise
write one archive week file per occupied week of the previous month,
register (or overwrite) the archive entry in the index, and keep only the
current-month articles in the current file. -/
def archivePreviousMonth (now : DateM) (s : StoreState) :
    Option ArchResult × StoreState :=
  if (prevMonthArticles now s).length = 0 then (none, s)
  else
    (some { archived := (prevMonthArticles now s).length
            month := prevMonthKey now },
      archiveApply now s)

/-! ## Deletion: `deleteArticle`, `clearAllArticles` -/

/-- `deleteArticle(id)`: look the record up in the current file only; when
found, drop it from the current file, remove its dedup entry, and decrement
`totalArticles` and the three stat maps. -/
def deleteArticle (id : String) (s : StoreState) : Bool × StoreState :=
  match s.current.articles.find? (fun a => a.id == id) with
  | none => (false, s)
  | some article =>
    let current' : MonthFile :=
      { s.current with
        articles := s.current.articles.filter (fun a => !(a.id == id)) }
    let index' : IndexData :=
      { s.index with
        urlIndex := removeKey s.index.urlIndex article.link
        totalArticles := s.index.totalArticles - 1
        stats :=
          { byCategory := decrDel s.index.stats.byCategory article.category
            bySource := decrDel s.index.stats.bySource article.source
            byMonth := decrDel s.index.stats.byMonth
              (getMonthKey article.savedAt) } }
    (true, { s with current := current', index := index' })

/-- `clearAllArticles()`: delete the current file, wipe the archives tree,
write a fresh index, and let `initStorage` recreate an empty current file
stamped with the current month. -/
def clearAllArticles (now : DateM) (_s : StoreState) : StoreState :=
  initialState now

/-! ## Categories and slugs -/

structure CategoryInfo where
  name : String
  slug : String
  count : Int
deriving DecidableEq, Repr

/-- `getCategories()`: the `byCategory` entries, slugged, sorted by
descending count (`sort((a, b) => b.count - a.count)`, stable). -/
def getCategories (idx : IndexData) : List CategoryInfo :=
  (idx.stats.byCategory.map
    (fun p => CategoryInfo.mk p.1 (slugifyCategory p.1) p.2)).insertionSort
    (fun a b => b.count ≤ a.count)

/-- `getCategoryFromSlug(slug)`: first category whose slug matches;
`found?.name || null` maps both "not found" and an empty name to `null`. -/
def getCategoryFromSlug (idx : IndexData) (slug : String) : Option String :=
  match (getCategories idx).find? (fun c => c.slug == slug) with
  | none => none
  | some c => if c.name = "" then none else some c.name

/-! ## HTTP boundary (feeds router, `src/unnamed/part_004`) -/

/-- A raw article object from the `/save` request body (untyped JSON): every
field may be absent. -/
structure RawArticle where
  title : Option String
  link : String
  description : Option String
  source : String
  pubDate : Option String
  category : Option String
deriving DecidableEq, Repr

/-- The formatting map of `router.post('/save')`: defaults for
`description` (`|| ''`), `pubDate` (`|| a.isoDate || now`) and `category`
(`|| 'Autre'`, so an empty string also falls back); `title` and `link` are
passed through unvalidated. -/
def formatArticle (nowStr : String) (a : RawArticle) : InputArticle :=
  { title := a.title
    link := a.link
    description := a.description.getD ""
    source := a.source
    pubDate := a.pubDate.getD nowStr
    category :=
      match a.category with
      | some c => if c = "" then "Autre" else c
      | none => "Autre" }

inductive RouteStatus where
  | badRequest
  | ok
deriving DecidableEq, Repr

/-- `router.post('/save')`: reject a missing/empty `articles` array with 400
before touching the store; otherwise format the records and call
`saveArticles`. -/
def saveRoute (articles : Option (List RawArticle)) (sb : SavedBy)
    (now : DateM) (nowStr : String) (s : StoreState) :
    RouteStatus × Option SaveResult × StoreState :=
  match articles with
  | none => (.badRequest, none, s)
  | some arts =>
    if arts.length = 0 then (.badRequest, none, s)
    else
      let (res, s') := saveArticles (arts.map (formatArticle nowStr)) sb now s
      (.ok, some res, s')

/-- `router.delete('/clear')`: `confirm !== true` (absent, `false`, or any
non-`true` value) is rejected with a usage error before any mutation;
only `confirm: true` reaches `clearAllArticles`. -/
def clearRoute (confirm : Option Bool) (now : DateM) (s : StoreState) :
    RouteStatus × StoreState :=
  if confirm = some true then (.ok, clearAllArticles now s)
  else (.badRequest, s)

/-! ## Stat-map lemmas -/

theorem lookupD_nil (k : String) : lookupD [] k = 0 := rfl

theorem lookupD_cons (k₀ : String) (v : Int) (rest : StatMap) (k : String) :
    lookupD ((k₀, v) :: rest) k = if k₀ == k then v else lookupD rest k := by
  by_cases h : k₀ == k <;> simp [lookupD, List.find?, h]

theorem sumVals_nil : sumVals [] = 0 := rfl

theorem sumVals_cons (k₀ : String) (v : Int) (rest : StatMap) :
    sumVals ((k₀, v) :: rest) = v + sumVals rest := by
  simp [sumVals]

theorem sumVals_incr (m : StatMap) (k : String) :
    sumVals (incr m k) = sumVals m + 1 := by
  induction m with
  | nil => simp [incr, sumVals]
  | cons p rest ih =>
    obtain ⟨k', v⟩ := p
    by_cases h : k' == k
    · simp only [incr, h, if_true, sumVals_cons]
      ring
    · simp only [incr, h, Bool.false_eq_true, if_false, sumVals_cons]
      omega

theorem lookupD_incr_self (m : StatMap) (k : String) :
    lookupD (incr m k) k = lookupD m k + 1 := by
  induction m with
  | nil => simp [incr, lookupD_cons, lookupD_nil]
  | cons p rest ih =>
    obtain ⟨k', v⟩ := p
    by_cases h : k' == k
    · simp [incr, h, lookupD_cons]
    · simp [incr, h, lookupD_cons, ih]

theorem lookupD_incr_ne (m : StatMap) (k k' : String) (h : k' ≠ k) :
    lookupD (incr m k) k' = lookupD m k' := by
  have hkk : (k == k') = false := by
    simpa using fun hc => h hc.symm
  induction m with
  | nil => simp [incr, lookupD_cons, lookupD_nil, hkk]
  | cons p rest ih =>
    obtain ⟨k₀, v⟩ := p
    by_cases h0 : k₀ == k
    · have h0' : k₀ = k := by simpa using h0
      subst h0'
      simp [incr, h0, lookupD_cons, hkk]
    · simp [incr, h0, lookupD_cons, ih]

theorem sumVals_decrDel (m : StatMap) (k : String) (h : lookupD m k ≠ 0) :
    sumVals (decrDel m k) = sumVals m - 1 := by
  induction m with
  | nil => simp [lookupD_nil] at h
  | cons p rest ih =>
    obtain ⟨k', v⟩ := p
    by_cases h0 : k' == k
    · have hv : v ≠ 0 := by
        simpa [lookupD_cons, h0] using h
      by_cases h1 : v - 1 == 0
      · have hv1 : v = 1 := by
          have : v - 1 = 0 := by simpa using h1
          omega
        simp [decrDel, h0, (by simpa using hv : ¬(v = 0)), h1, sumVals_cons, hv1]
      · simp only [decrDel, h0, if_true,
          (by simpa using hv : ¬(v = 0)), beq_iff_eq, if_false, h1,
          Bool.false_eq_true, sumVals_cons]
        ring
    · have h' : lookupD rest k ≠ 0 := by
        simpa [lookupD_cons, h0] using h
      simp only [decrDel, h0, Bool.false_eq_true, if_false, sumVals_cons, ih h']
      ring

theorem lookupD_notMem (m : StatMap) (k : String)
    (h : ¬ k ∈ m.map Prod.fst) : lookupD m k = 0 := by
  induction m with
  | nil => rfl
  | cons p rest ih =>
    obtain ⟨k₀, v⟩ := p
    simp only [List.map_cons, List.mem_cons] at h
    push_neg at h
    simp [lookupD_cons, (by simpa using fun hc => h.1 hc.symm : (k₀ == k) = false),
      ih h.2]

theorem lookupD_decrDel_self (m : StatMap) (k : String)
    (hnd : (m.map Prod.fst).Nodup) (h : lookupD m k ≠ 0) :
    lookupD (decrDel m k) k = lookupD m k - 1 := by
  induction m with
  | nil => simp [lookupD_nil] at h
  | cons p rest ih =>
    obtain ⟨k', v⟩ := p
    by_cases h0 : k' == k
    · have h0' : k' = k := by simpa using h0
      have hv : v ≠ 0 := by simpa [lookupD_cons, h0] using h
      have hnd1 : ¬ k' ∈ rest.map Prod.fst :=
        (List.nodup_cons.mp (by simpa using hnd)).1
      have hrest : lookupD rest k = 0 := lookupD_notMem rest k (h0' ▸ hnd1)
      by_cases h1 : v - 1 == 0
      · have hv1 : v = 1 := by
          have : v - 1 = 0 := by simpa using h1
          omega
        simp [decrDel, h0, (by simpa using hv : ¬(v = 0)), h1, lookupD_cons,
          hrest, hv1]
      · simp [decrDel, h0, (by simpa using hv : ¬(v = 0)), h1, lookupD_cons]
    · have h' : lookupD rest k ≠ 0 := by
        simpa [lookupD_cons, h0] using h
      have hnd' : (rest.map Prod.fst).Nodup := (List.nodup_cons.mp hnd).2
      simp [decrDel, h0, lookupD_cons, ih hnd' h']

theorem lookupD_decrDel_ne (m : StatMap) (k k' : String) (h : k' ≠ k) :
    lookupD (decrDel m k) k' = lookupD m k' := by
  have hkk : (k == k') = false := by
    simpa using fun hc => h hc.symm
  induction m with
  | nil => simp [decrDel]
  | cons p rest ih =>
    obtain ⟨k₀, v⟩ := p
    by_cases h0 : k₀ == k
    · have h0' : k₀ = k := by simpa using h0
      subst h0'
      by_cases hv : v == 0
      · simp [decrDel, hv, lookupD_cons]
      · by_cases h1 : v - 1 == 0
        · simp [decrDel, hv, h1, lookupD_cons, hkk]
        · simp [decrDel, hv, h1, lookupD_cons, hkk]
    · by_cases h1 : k₀ == k'
      · simp [decrDel, h0, lookupD_cons, h1]
      · simp [decrDel, h0, lookupD_cons, h1, ih]

theorem keys_decrDel_sublist (m : StatMap) (k : String) :
    List.Sublist ((decrDel m k).map Prod.fst) (m.map Prod.fst) := by
  induction m with
  | nil => simp [decrDel]
  | cons p rest ih =>
    obtain ⟨k', v⟩ := p
    by_cases h0 : k' == k
    · by_cases hv : v == 0
      · simp [decrDel, h0, hv]
      · by_cases h1 : v - 1 == 0
        · simp only [decrDel, h0, if_true, hv, h1]
          simp only [Bool.false_eq_true, if_false]
          exact (List.sublist_cons_self _ _)
        · simp [decrDel, h0, hv, h1]
    · simp only [decrDel, h0, Bool.false_eq_true, if_false, List.map_cons]
      exact ih.cons₂ _

theorem nodup_keys_incr (m : StatMap) (k : String)
    (h : (m.map Prod.fst).Nodup) : ((incr m k).map Prod.fst).Nodup := by
  induction m with
  | nil => simp [incr]
  | cons p rest ih =>
    obtain ⟨k', v⟩ := p
    by_cases h0 : k' == k
    · simpa [incr, h0] using h
    · have h0' : k' ≠ k := by simpa using h0
      simp only [List.map_cons, List.nodup_cons] at h
      have hmem : ∀ x ∈ (incr rest k).map Prod.fst, x = k ∨ x ∈ rest.map Prod.fst := by
        clear ih h
        induction rest with
        | nil => simp [incr]
        | cons q tail ihq =>
          obtain ⟨kq, vq⟩ := q
          by_cases hq : kq == k
          · simp [incr, hq]
            tauto
          · intro x hx
            simp only [incr, hq, Bool.false_eq_true, if_false, List.map_cons,
              List.mem_cons] at hx
            rcases hx with hx | hx
            · right; simp [hx]
            · rcases ihq x hx with h | h
              · left; exact h
              · right; simp [h]
      simp only [incr, h0, Bool.false_eq_true, if_false, List.map_cons, List.nodup_cons]
      refine ⟨fun hmem' => ?_, ih h.2⟩
      rcases hmem _ hmem' with h' | h'
      · exact h0' h'
      · exact h.1 h'

/-! ## Save-loop lemmas -/

theorem hasKey_append (u : UrlIndex) (k L : String) (e : UrlEntry) :
    hasKey (u ++ [(k, e)]) L = (hasKey u L || (k == L)) := by
  simp [hasKey]

/-- Per-call bookkeeping of the save loop: one classification flag per
candidate; `saved`, `duplicates` and `totalArticles` advance by the number
of `true` / `false` flags. -/
theorem saveLoop_spec (now : DateM) (sb : SavedBy) :
    ∀ (batch : List InputArticle) (ls : LoopState),
      (saveLoop now sb batch ls).2.length = batch.length ∧
      (saveLoop now sb batch ls).1.saved
        = ls.saved + (saveLoop now sb batch ls).2.count true ∧
      (saveLoop now sb batch ls).1.dups
        = ls.dups + (saveLoop now sb batch ls).2.count false ∧
      (saveLoop now sb batch ls).1.idx.totalArticles
        = ls.idx.totalArticles + (saveLoop now sb batch ls).2.count true
  | [], ls => by simp [saveLoop]
  | a :: rest, ls => by
    cases h : hasKey ls.idx.urlIndex a.link
    · have ih := saveLoop_spec now sb rest
        { idx := addArticleIdx ls.idx a now
          arts := ls.arts ++ [mkSaved a now sb]
          saved := ls.saved + 1
          dups := ls.dups }
      simp only [saveLoop, h, Bool.false_eq_true, if_false, List.count_cons,
        List.length_cons] at ih ⊢
      refine ⟨by simp; omega, by simp; omega, by simp; omega, ?_⟩
      simp only [addArticleIdx] at ih ⊢
      simp
      omega
    · have ih := saveLoop_spec now sb rest { ls with dups := ls.dups + 1 }
      simp only [saveLoop, h, if_true, List.count_cons, List.length_cons] at ih ⊢
      refine ⟨by omega, by simp; omega, by simp; omega, by simp; omega⟩

/-- Once a link is in the dedup index it stays there for the rest of the
batch. -/
theorem saveLoop_hasKey_mono (now : DateM) (sb : SavedBy) (L : String) :
    ∀ (batch : List InputArticle) (ls : LoopState),
      hasKey ls.idx.urlIndex L = true →
      hasKey (saveLoop now sb batch ls).1.idx.urlIndex L = true
  | [], ls => by simp [saveLoop]
  | a :: rest, ls => by
    intro hL
    cases h : hasKey ls.idx.urlIndex a.link
    · have : hasKey (addArticleIdx ls.idx a now).urlIndex L = true := by
        simp [addArticleIdx, hasKey_append, hL]
      simpa [saveLoop, h] using
        saveLoop_hasKey_mono now sb L rest
          { idx := addArticleIdx ls.idx a now
            arts := ls.arts ++ [mkSaved a now sb]
            saved := ls.saved + 1
            dups := ls.dups } this
    · simpa [saveLoop, h] using
        saveLoop_hasKey_mono now sb L rest { ls with dups := ls.dups + 1 } hL

/-- `saveArticles` of a single not-yet-indexed record: saved as new. -/
theorem save_single_new (s : StoreState) (r : InputArticle) (sb : SavedBy)
    (now : DateM) (h : hasKey s.index.urlIndex r.link = false) :
    saveArticles [r] sb now s =
      ({ saved := 1, duplicates := 0, total := s.index.totalArticles + 1 },
        { index := addArticleIdx s.index r now
          current :=
            { month := getMonthKey now
              articles :=
                sortBySavedAtDesc (s.current.articles ++ [mkSaved r now sb]) }
          archives := s.archives }) := by
  simp [saveArticles, saveLoop, h, addArticleIdx]

/-- `saveArticles` of a single already-indexed record: pure duplicate,
state untouched. -/
theorem save_single_dup (s : StoreState) (r : InputArticle) (sb : SavedBy)
    (now : DateM) (h : hasKey s.index.urlIndex r.link = true) :
    saveArticles [r] sb now s =
      ({ saved := 0, duplicates := 1, total := s.index.totalArticles }, s) := by
  simp [saveArticles, saveLoop, h]

/-- Shape of the classification flags at the positions of one link `L`:
first occurrence saved, all later occurrences duplicates. -/
def trueThenFalse : Nat → List Bool
  | 0 => []
  | n + 1 => true :: List.replicate n false

theorem count_bools (cs : List Bool) :
    cs.count true + cs.count false = cs.length := by
  induction cs with
  | nil => rfl
  | cons c rest ih => cases c <;> simp [List.count_cons] <;> omega

/-- Where the flags at the positions of link `L` come from: if `L` is already
indexed when the loop starts every occurrence is a duplicate, otherwise the
first occurrence is saved and the rest are duplicates. -/
theorem saveLoop_classification (now : DateM) (sb : SavedBy) (L : String) :
    ∀ (batch : List InputArticle) (ls : LoopState),
      ((batch.zip (saveLoop now sb batch ls).2).filter
          (fun p => p.1.link == L)).map Prod.snd =
        if hasKey ls.idx.urlIndex L then
          List.replicate (batch.countP (fun a => a.link == L)) false
        else trueThenFalse (batch.countP (fun a => a.link == L))
  | [], ls => by
    cases h : hasKey ls.idx.urlIndex L <;> simp [saveLoop, h, trueThenFalse]
  | a :: rest, ls => by
    by_cases hL : a.link == L
    · have hL' : a.link = L := by simpa using hL
      cases hk : hasKey ls.idx.urlIndex L
      · -- first occurrence of L: saved, and L becomes indexed
        have hk' : hasKey ls.idx.urlIndex a.link = false := by rw [hL']; exact hk
        have hnext : hasKey (addArticleIdx ls.idx a now).urlIndex L = true := by
          simp [addArticleIdx, hasKey_append, hL]
        have ih := saveLoop_classification now sb L rest
          { idx := addArticleIdx ls.idx a now
            arts := ls.arts ++ [mkSaved a now sb]
            saved := ls.saved + 1
            dups := ls.dups }
        rw [hnext, if_pos rfl] at ih
        simp only [saveLoop, hk', Bool.false_eq_true, if_false, List.zip_cons_cons,
          List.filter_cons, hL, if_true, List.map_cons, List.countP_cons, hL']
        simp only [hk, Bool.false_eq_true, if_false]
        simp [List.filter_cons, hL, ih, trueThenFalse]
      · -- later occurrence of L: duplicate, index untouched
        have hk' : hasKey ls.idx.urlIndex a.link = true := by rw [hL']; exact hk
        have ih := saveLoop_classification now sb L rest
          { ls with dups := ls.dups + 1 }
        rw [(by exact hk : hasKey ls.idx.urlIndex L = true), if_pos rfl] at ih
        simp only [saveLoop, hk', if_true, List.zip_cons_cons, List.filter_cons,
          hL, List.map_cons, List.countP_cons, hL']
        simp only [hk, if_true]
        simp [List.filter_cons, hL, ih, List.replicate_succ]
    · -- a different link: filtered out, and `L`'s index membership unchanged
      cases hk : hasKey ls.idx.urlIndex a.link
      · have hnext : hasKey (addArticleIdx ls.idx a now).urlIndex L
            = hasKey ls.idx.urlIndex L := by
          simp [addArticleIdx, hasKey_append, hL]
        have ih := saveLoop_classification now sb L rest
          { idx := addArticleIdx ls.idx a now
            arts := ls.arts ++ [mkSaved a now sb]
            saved := ls.saved + 1
            dups := ls.dups }
        rw [hnext] at ih
        simp only [saveLoop, hk, Bool.false_eq_true, if_false, List.zip_cons_cons,
          List.filter_cons, hL, List.map_cons, List.countP_cons]
        simpa [hL] using ih
      · have ih := saveLoop_classification now sb L rest
          { ls with dups := ls.dups + 1 }
        simp only [saveLoop, hk, if_true, List.zip_cons_cons, List.filter_cons,
          hL, List.map_cons, List.countP_cons]
        simpa [hL] using ih

/-- The result half of `saveArticles` does not depend on the persist branch. -/
theorem saveArticles_fst (batch : List InputArticle) (sb : SavedBy)
    (now : DateM) (s : StoreState) :
    (saveArticles batch sb now s).1 =
      { saved := (saveLoop now sb batch ⟨s.index, s.current.articles, 0, 0⟩).1.saved
        duplicates := (saveLoop now sb batch ⟨s.index, s.current.articles, 0, 0⟩).1.dups
        total := (saveLoop now sb batch
          ⟨s.index, s.current.articles, 0, 0⟩).1.idx.totalArticles } := by
  simp only [saveArticles]
  split <;> rfl

/-- The state half of `saveArticles` when at least one record was saved. -/
theorem saveArticles_snd_of_pos (batch : List InputArticle) (sb : SavedBy)
    (now : DateM) (s : StoreState)
    (h : 0 < (saveLoop now sb batch ⟨s.index, s.current.articles, 0, 0⟩).1.saved) :
    (saveArticles batch sb now s).2 =
      { index := (saveLoop now sb batch ⟨s.index, s.current.articles, 0, 0⟩).1.idx
        current :=
          { month := getMonthKey now
            articles := sortBySavedAtDesc
              (saveLoop now sb batch ⟨s.index, s.current.articles, 0, 0⟩).1.arts }
        archives := s.archives } := by
  simp only [saveArticles]
  split
  · rfl
  · exact absurd h (by assumption)

/-- The state half of `saveArticles` when nothing was saved: untouched. -/
theorem saveArticles_snd_of_zero (batch : List InputArticle) (sb : SavedBy)
    (now : DateM) (s : StoreState)
    (h : ¬ 0 < (saveLoop now sb batch ⟨s.index, s.current.articles, 0, 0⟩).1.saved) :
    (saveArticles batch sb now s).2 = s := by
  simp only [saveArticles]
  split
  · exact absurd (by assumption) h
  · rfl

/-- C10 (implicit claim): every candidate of a batch is classified as either
saved or duplicate — `saved + duplicates` equals the batch length — and the
returned `total` is the post-call `totalRecords`, which is the pre-call
`totalRecords` plus `saved`. -/
theorem save_classifies_every_candidate (batch : List InputArticle)
    (sb : SavedBy) (now : DateM) (s : StoreState) :
    (saveArticles batch sb now s).1.saved
        + (saveArticles batch sb now s).1.duplicates = batch.length ∧
    ((saveArticles batch sb now s).1.total
        = s.index.totalArticles + (saveArticles batch sb now s).1.saved) ∧
    (saveArticles batch sb now s).1.total
        = (saveArticles batch sb now s).2.index.totalArticles := by
  have hs := saveLoop_spec now sb batch ⟨s.index, s.current.articles, 0, 0⟩
  obtain ⟨hlen, hsaved, hdups, htotal⟩ := hs
  dsimp only at hsaved hdups htotal
  have hfst := saveArticles_fst batch sb now s
  have hcount := count_bools (saveLoop now sb batch
    ⟨s.index, s.current.articles, 0, 0⟩).2
  refine ⟨by rw [hfst]; dsimp only; omega, by rw [hfst]; dsimp only; omega, ?_⟩
  by_cases hpos : 0 < (saveLoop now sb batch
      ⟨s.index, s.current.articles, 0, 0⟩).1.saved
  · rw [hfst, saveArticles_snd_of_pos batch sb now s hpos]
  · rw [hfst, saveArticles_snd_of_zero batch sb now s hpos]
    dsimp only
    omega

/-- C1: at-most-once storage per link.  A record whose link is not yet in the
dedup index is saved (`saved=1, duplicates=0`, `totalRecords+1`) and its link
becomes indexed; from any state where the link is indexed, saving it again
yields `saved=0, duplicates=1` and changes nothing; and the dedup entry
survives every further `saveArticles` and `archivePreviousMonth` call (i.e.
until an explicit delete). -/
theorem saveArticles_dedup_idempotent (s : StoreState) (r : InputArticle)
    (L : String) (sb : SavedBy) (now : DateM) (hL : r.link = L)
    (h : hasKey s.index.urlIndex L = false) :
    (saveArticles [r] sb now s).1.saved = 1 ∧
    (saveArticles [r] sb now s).1.duplicates = 0 ∧
    (saveArticles [r] sb now s).2.index.totalArticles
      = s.index.totalArticles + 1 ∧
    hasKey (saveArticles [r] sb now s).2.index.urlIndex L = true ∧
    (∀ (t : StoreState) (r' : InputArticle) (sb' : SavedBy) (now' : DateM),
      r'.link = L → hasKey t.index.urlIndex L = true →
      (saveArticles [r'] sb' now' t).1.saved = 0 ∧
      (saveArticles [r'] sb' now' t).1.duplicates = 1 ∧
      (saveArticles [r'] sb' now' t).2 = t) ∧
    (∀ (t : StoreState), hasKey t.index.urlIndex L = true →
      (∀ batch sb' now',
        hasKey (saveArticles batch sb' now' t).2.index.urlIndex L = true) ∧
      (∀ now', hasKey (archivePreviousMonth now' t).2.index.urlIndex L = true)) := by
  have hr : hasKey s.index.urlIndex r.link = false := by rw [hL]; exact h
  have hnew := save_single_new s r sb now hr
  refine ⟨by rw [hnew], by rw [hnew], by rw [hnew]; simp [addArticleIdx], ?_, ?_, ?_⟩
  · rw [hnew]
    simp [addArticleIdx, hasKey_append, hL]
  · intro t r' sb' now' hL' hkt
    have hr' : hasKey t.index.urlIndex r'.link = true := by rw [hL']; exact hkt
    have hdup := save_single_dup t r' sb' now' hr'
    exact ⟨by rw [hdup], by rw [hdup], by rw [hdup]⟩
  · intro t hkt
    constructor
    · intro batch sb' now'
      have hmono := saveLoop_hasKey_mono now' sb' L batch
        ⟨t.index, t.current.articles, 0, 0⟩ hkt
      by_cases hpos : (saveLoop now' sb' batch
          ⟨t.index, t.current.articles, 0, 0⟩).1.saved > 0
      · simpa [saveArticles, hpos] using hmono
      · simpa [saveArticles, hpos] using hkt
    · intro now'
      simp only [archivePreviousMonth]
      split
      · exact hkt
      · exact hkt

/-- C2: within-batch dedup.  If a batch contains exactly two records with
link `L` and `L` is not yet indexed, one call classifies exactly one of them
as saved and the other as a duplicate (the flags at `L`'s positions are
`[true, false]`), and the returned counters are exactly the counts of these
per-record classifications. -/
theorem saveArticles_within_batch_dedup (s : StoreState)
    (batch : List InputArticle) (L : String) (sb : SavedBy) (now : DateM)
    (h2 : batch.countP (fun a => a.link == L) = 2)
    (hk : hasKey s.index.urlIndex L = false) :
    ((batch.zip (saveClassification batch sb now s)).filter
        (fun p => p.1.link == L)).map Prod.snd = [true, false] ∧
    (saveArticles batch sb now s).1.saved
      = (saveClassification batch sb now s).count true ∧
    (saveArticles batch sb now s).1.duplicates
      = (saveClassification batch sb now s).count false := by
  have hclass := saveLoop_classification now sb L batch
    ⟨s.index, s.current.articles, 0, 0⟩
  rw [hk] at hclass
  simp only [Bool.false_eq_true, if_false, h2] at hclass
  have hs := saveLoop_spec now sb batch ⟨s.index, s.current.articles, 0, 0⟩
  obtain ⟨hlen, hsaved, hdups, htotal⟩ := hs
  have hfst := saveArticles_fst batch sb now s
  refine ⟨?_, by rw [hfst]; simpa [saveClassification] using hsaved,
    by rw [hfst]; simpa [saveClassification] using hdups⟩
  simpa [saveClassification, trueThenFalse] using hclass

/-- Witness for `saveArticles_dedup_idempotent` at a concrete record and the
fresh store. -/
theorem saveArticles_dedup_idempotent_witness :
    ((InputArticle.mk (some "T") "https://example.com/a" "d" "Src"
        "2025-10-01" "IA & Data").link = "https://example.com/a" ∧
      hasKey (initialState ⟨2025, 10, 5⟩).index.urlIndex
        "https://example.com/a" = false) ∧
    ((saveArticles [InputArticle.mk (some "T") "https://example.com/a" "d"
          "Src" "2025-10-01" "IA & Data"] SavedBy.manual ⟨2025, 10, 5⟩
          (initialState ⟨2025, 10, 5⟩)).1.saved = 1 ∧
      (saveArticles [InputArticle.mk (some "T") "https://example.com/a" "d"
          "Src" "2025-10-01" "IA & Data"] SavedBy.manual ⟨2025, 10, 5⟩
          (initialState ⟨2025, 10, 5⟩)).1.duplicates = 0 ∧
      (saveArticles [InputArticle.mk (some "T") "https://example.com/a" "d"
          "Src" "2025-10-01" "IA & Data"] SavedBy.manual ⟨2025, 10, 5⟩
          (initialState ⟨2025, 10, 5⟩)).2.index.totalArticles
        = (initialState ⟨2025, 10, 5⟩).index.totalArticles + 1 ∧
      hasKey (saveArticles [InputArticle.mk (some "T") "https://example.com/a"
          "d" "Src" "2025-10-01" "IA & Data"] SavedBy.manual ⟨2025, 10, 5⟩
          (initialState ⟨2025, 10, 5⟩)).2.index.urlIndex
          "https://example.com/a" = true ∧
      (∀ (t : StoreState) (r' : InputArticle) (sb' : SavedBy) (now' : DateM),
        r'.link = "https://example.com/a" →
        hasKey t.index.urlIndex "https://example.com/a" = true →
        (saveArticles [r'] sb' now' t).1.saved = 0 ∧
        (saveArticles [r'] sb' now' t).1.duplicates = 1 ∧
        (saveArticles [r'] sb' now' t).2 = t) ∧
      (∀ (t : StoreState),
        hasKey t.index.urlIndex "https://example.com/a" = true →
        (∀ batch sb' now',
          hasKey (saveArticles batch sb' now' t).2.index.urlIndex
            "https://example.com/a" = true) ∧
        (∀ now',
          hasKey (archivePreviousMonth now' t).2.index.urlIndex
            "https://example.com/a" = true))) :=
  ⟨⟨rfl, by decide⟩,
    saveArticles_dedup_idempotent (initialState ⟨2025, 10, 5⟩)
      (InputArticle.mk (some "T") "https://example.com/a" "d" "Src"
        "2025-10-01" "IA & Data")
      "https://example.com/a" SavedBy.manual ⟨2025, 10, 5⟩ rfl (by decide)⟩

/-- Witness for `saveArticles_within_batch_dedup`: a two-element batch with
the same link against the fresh store. -/
theorem saveArticles_within_batch_dedup_witness :
    (([InputArticle.mk (some "T1") "https://example.com/b" "d1" "S1"
          "2025-10-01" "Tech",
        InputArticle.mk (some "T2") "https://example.com/b" "d2" "S2"
          "2025-10-02" "Tech"].countP
        (fun a => a.link == "https://example.com/b") = 2) ∧
      hasKey (initialState ⟨2025, 10, 5⟩).index.urlIndex
        "https://example.com/b" = false) ∧
    ((([InputArticle.mk (some "T1") "https://example.com/b" "d1" "S1"
            "2025-10-01" "Tech",
          InputArticle.mk (some "T2") "https://example.com/b" "d2" "S2"
            "2025-10-02" "Tech"].zip
          (saveClassification
            [InputArticle.mk (some "T1") "https://example.com/b" "d1" "S1"
                "2025-10-01" "Tech",
              InputArticle.mk (some "T2") "https://example.com/b" "d2" "S2"
                "2025-10-02" "Tech"] SavedBy.auto ⟨2025, 10, 5⟩
            (initialState ⟨2025, 10, 5⟩))).filter
          (fun p => p.1.link == "https://example.com/b")).map Prod.snd
        = [true, false] ∧
      (saveArticles
          [InputArticle.mk (some "T1") "https://example.com/b" "d1" "S1"
              "2025-10-01" "Tech",
            InputArticle.mk (some "T2") "https://example.com/b" "d2" "S2"
              "2025-10-02" "Tech"] SavedBy.auto ⟨2025, 10, 5⟩
          (initialState ⟨2025, 10, 5⟩)).1.saved
        = (saveClassification
            [InputArticle.mk (some "T1") "https://example.com/b" "d1" "S1"
                "2025-10-01" "Tech",
              InputArticle.mk (some "T2") "https://example.com/b" "d2" "S2"
                "2025-10-02" "Tech"] SavedBy.auto ⟨2025, 10, 5⟩
            (initialState ⟨2025, 10, 5⟩)).count true ∧
      (saveArticles
          [InputArticle.mk (some "T1") "https://example.com/b" "d1" "S1"
              "2025-10-01" "Tech",
            InputArticle.mk (some "T2") "https://example.com/b" "d2" "S2"
              "2025-10-02" "Tech"] SavedBy.auto ⟨2025, 10, 5⟩
          (initialState ⟨2025, 10, 5⟩)).1.duplicates
        = (saveClassification
            [InputArticle.mk (some "T1") "https://example.com/b" "d1" "S1"
                "2025-10-01" "Tech",
              InputArticle.mk (some "T2") "https://example.com/b" "d2" "S2"
                "2025-10-02" "Tech"] SavedBy.auto ⟨2025, 10, 5⟩
            (initialState ⟨2025, 10, 5⟩)).count false) :=
  ⟨⟨by decide, by decide⟩,
    saveArticles_within_batch_dedup (initialState ⟨2025, 10, 5⟩)
      [InputArticle.mk (some "T1") "https://example.com/b" "d1" "S1"
          "2025-10-01" "Tech",
        InputArticle.mk (some "T2") "https://example.com/b" "d2" "S2"
          "2025-10-02" "Tech"]
      "https://example.com/b" SavedBy.auto ⟨2025, 10, 5⟩ (by decide) (by decide)⟩

/-- Shared bookkeeping: a call of `saveArticles` classifies every candidate
— `saved + duplicates = batch.length`. -/
theorem saveArticles_saved_add_dups (batch : List InputArticle) (sb : SavedBy)
    (now : DateM) (s : StoreState) :
    (saveArticles batch sb now s).1.saved
      + (saveArticles batch sb now s).1.duplicates = batch.length := by
  have hs := saveLoop_spec now sb batch ⟨s.index, s.current.articles, 0, 0⟩
  obtain ⟨hlen, hsaved, hdups, _⟩ := hs
  dsimp only at hsaved hdups
  have hcount := count_bools (saveLoop now sb batch
    ⟨s.index, s.current.articles, 0, 0⟩).2
  rw [saveArticles_fst batch sb now s]
  dsimp only
  omega

/-- C6 counterexample: a `/save` request whose single record lacks a `title`
is not rejected anywhere — the route accepts it and `saveArticles` stores it,
so the returned `saved` count equals the batch size (the claim demands a
strictly smaller `saved` count). -/
theorem save_malformed_not_rejected_cex :
    (saveRoute
        (some [RawArticle.mk none "https://example.com/no-title" none "Src"
            none (some "Tech")])
        SavedBy.manual ⟨2025, 10, 5⟩ "2025-10-05T00:00:00.000Z"
        (initialState ⟨2025, 10, 5⟩)).1 = RouteStatus.ok ∧
    (saveRoute
        (some [RawArticle.mk none "https://example.com/no-title" none "Src"
            none (some "Tech")])
        SavedBy.manual ⟨2025, 10, 5⟩ "2025-10-05T00:00:00.000Z"
        (initialState ⟨2025, 10, 5⟩)).2.1
      = some { saved := 1, duplicates := 0, total := 1 } := by
  constructor
  · rfl
  · decide

/-- C6 as amended: no malformed-input rejection exists.  A candidate lacking
a `title` is classified through the dedup check like every other record —
the whole batch still satisfies `saved + duplicates = length`, and saving
the malformed record alone yields saved/duplicate purely according to
whether its link is already indexed. -/
theorem save_missing_title_not_rejected (s : StoreState)
    (batch : List InputArticle) (r : InputArticle) (sb : SavedBy)
    (now : DateM) (hr : r ∈ batch) (ht : r.title = none) :
    (saveArticles batch sb now s).1.saved
        + (saveArticles batch sb now s).1.duplicates = batch.length ∧
    (saveArticles [r] sb now s).1.saved
        = (if hasKey s.index.urlIndex r.link then 0 else 1) ∧
    (saveArticles [r] sb now s).1.duplicates
        = (if hasKey s.index.urlIndex r.link then 1 else 0) := by
  refine ⟨saveArticles_saved_add_dups batch sb now s, ?_, ?_⟩ <;>
    cases hk : hasKey s.index.urlIndex r.link <;>
      simp [save_single_new s r sb now, save_single_dup s r sb now, hk]

/-- Witness for `save_missing_title_not_rejected` at a concrete title-less
record. -/
theorem save_missing_title_not_rejected_witness :
    ((InputArticle.mk none "https://example.com/no-title" "" "Src"
        "2025-10-01" "Tech")
      ∈ [InputArticle.mk none "https://example.com/no-title" "" "Src"
          "2025-10-01" "Tech"] ∧
      (InputArticle.mk none "https://example.com/no-title" "" "Src"
        "2025-10-01" "Tech").title = none) ∧
    ((saveArticles [InputArticle.mk none "https://example.com/no-title" ""
          "Src" "2025-10-01" "Tech"] SavedBy.manual ⟨2025, 10, 5⟩
          (initialState ⟨2025, 10, 5⟩)).1.saved
        + (saveArticles [InputArticle.mk none "https://example.com/no-title"
            "" "Src" "2025-10-01" "Tech"] SavedBy.manual ⟨2025, 10, 5⟩
            (initialState ⟨2025, 10, 5⟩)).1.duplicates
      = [InputArticle.mk none "https://example.com/no-title" "" "Src"
          "2025-10-01" "Tech"].length ∧
      (saveArticles [InputArticle.mk none "https://example.com/no-title" ""
          "Src" "2025-10-01" "Tech"] SavedBy.manual ⟨2025, 10, 5⟩
          (initialState ⟨2025, 10, 5⟩)).1.saved
        = (if hasKey (initialState ⟨2025, 10, 5⟩).index.urlIndex
              (InputArticle.mk none "https://example.com/no-title" "" "Src"
                "2025-10-01" "Tech").link then 0 else 1) ∧
      (saveArticles [InputArticle.mk none "https://example.com/no-title" ""
          "Src" "2025-10-01" "Tech"] SavedBy.manual ⟨2025, 10, 5⟩
          (initialState ⟨2025, 10, 5⟩)).1.duplicates
        = (if hasKey (initialState ⟨2025, 10, 5⟩).index.urlIndex
              (InputArticle.mk none "https://example.com/no-title" "" "Src"
                "2025-10-01" "Tech").link then 1 else 0)) :=
  ⟨⟨by decide, rfl⟩,
    save_missing_title_not_rejected (initialState ⟨2025, 10, 5⟩)
      [InputArticle.mk none "https://example.com/no-title" "" "Src"
          "2025-10-01" "Tech"]
      (InputArticle.mk none "https://example.com/no-title" "" "Src"
        "2025-10-01" "Tech")
      SavedBy.manual ⟨2025, 10, 5⟩ (by decide) rfl⟩

/-- C8: the clear route mutates nothing unless the caller passes the literal
confirmation token `confirm: true`; without it the request fails with a
usage error and the state is untouched, and with it the current file, every
archive partition and the index are reset to empty. -/
theorem clear_requires_confirmation (c : Option Bool) (now : DateM)
    (s : StoreState) (hc : c ≠ some true) :
    clearRoute c now s = (RouteStatus.badRequest, s) ∧
    clearRoute (some true) now s =
      (RouteStatus.ok,
        { index := freshIndex
          current := { month := getMonthKey now, articles := [] }
          archives := [] }) := by
  constructor
  · simp [clearRoute, hc]
  · simp [clearRoute, clearAllArticles, initialState]

/-- Witness for `clear_requires_confirmation` with the token absent. -/
theorem clear_requires_confirmation_witness :
    ((none : Option Bool) ≠ some true) ∧
    (clearRoute none ⟨2025, 10, 5⟩ (initialState ⟨2025, 10, 5⟩)
        = (RouteStatus.badRequest, initialState ⟨2025, 10, 5⟩) ∧
      clearRoute (some true) ⟨2025, 10, 5⟩ (initialState ⟨2025, 10, 5⟩)
        = (RouteStatus.ok,
            { index := freshIndex
              current := { month := getMonthKey ⟨2025, 10, 5⟩, articles := [] }
              archives := [] })) :=
  ⟨by decide,
    clear_requires_confirmation none ⟨2025, 10, 5⟩
      (initialState ⟨2025, 10, 5⟩) (by decide)⟩

theorem hasKey_removeKey (u : UrlIndex) (k : String) :
    hasKey (removeKey u k) k = false := by
  induction u with
  | nil => rfl
  | cons p rest ih =>
    by_cases h : p.1 == k
    · simpa [removeKey, h] using ih
    · simpa [removeKey, hasKey, h] using ih

/-- C7: delete semantics.  `deleteArticle` searches only the current file:
for an id absent from it (in particular the id of any archived record) it
returns `false` and leaves the whole state unchanged; for a present id it
returns `true`, drops the record, decrements `totalRecords` and the stat
maps, frees the link's dedup entry, and a subsequent save of the same link
is classified as saved, not duplicate. -/
theorem deleteArticle_semantics (s : StoreState) (id : String) :
    (s.current.articles.find? (fun a => a.id == id) = none →
      deleteArticle id s = (false, s)) ∧
    (∀ a, s.current.articles.find? (fun a => a.id == id) = some a →
      (deleteArticle id s).1 = true ∧
      (deleteArticle id s).2.current.articles
        = s.current.articles.filter (fun x => !(x.id == id)) ∧
      (deleteArticle id s).2.index.totalArticles
        = s.index.totalArticles - 1 ∧
      (deleteArticle id s).2.index.stats.byCategory
        = decrDel s.index.stats.byCategory a.category ∧
      (deleteArticle id s).2.index.stats.byMonth
        = decrDel s.index.stats.byMonth (getMonthKey a.savedAt) ∧
      hasKey (deleteArticle id s).2.index.urlIndex a.link = false ∧
      (∀ (r' : InputArticle) (sb' : SavedBy) (now' : DateM),
        r'.link = a.link →
        (saveArticles [r'] sb' now' (deleteArticle id s).2).1.saved = 1 ∧
        (saveArticles [r'] sb' now' (deleteArticle id s).2).1.duplicates = 0)) := by
  constructor
  · intro hnone
    simp [deleteArticle, hnone]
  · intro a ha
    have hkey : hasKey (deleteArticle id s).2.index.urlIndex a.link = false := by
      simp only [deleteArticle, ha]
      exact hasKey_removeKey s.index.urlIndex a.link
    refine ⟨by simp [deleteArticle, ha], by simp [deleteArticle, ha],
      by simp [deleteArticle, ha], by simp [deleteArticle, ha],
      by simp [deleteArticle, ha], hkey, ?_⟩
    intro r' sb' now' hl
    have hr' : hasKey (deleteArticle id s).2.index.urlIndex r'.link = false := by
      rw [hl]; exact hkey
    have := save_single_new (deleteArticle id s).2 r' sb' now' hr'
    exact ⟨by rw [this], by rw [this]⟩

set_option maxRecDepth 4000 in
/-- Witness for `deleteArticle_semantics` on a one-article store: the stored
id is found and deleted; the conclusion is exercised at that state. -/
theorem deleteArticle_semantics_witness :
    ((saveArticles [InputArticle.mk (some "T") "https://example.com/a" "d"
          "Src" "2025-10-01" "Tech"] SavedBy.manual ⟨2025, 10, 5⟩
          (initialState ⟨2025, 10, 5⟩)).2.current.articles.find?
        (fun a => a.id == generateArticleId "https://example.com/a")
      = some (mkSaved (InputArticle.mk (some "T") "https://example.com/a" "d"
          "Src" "2025-10-01" "Tech") ⟨2025, 10, 5⟩ SavedBy.manual)) ∧
    ((deleteArticle (generateArticleId "https://example.com/a")
        (saveArticles [InputArticle.mk (some "T") "https://example.com/a" "d"
            "Src" "2025-10-01" "Tech"] SavedBy.manual ⟨2025, 10, 5⟩
            (initialState ⟨2025, 10, 5⟩)).2).1 = true ∧
      (deleteArticle (generateArticleId "https://example.com/a")
        (saveArticles [InputArticle.mk (some "T") "https://example.com/a" "d"
            "Src" "2025-10-01" "Tech"] SavedBy.manual ⟨2025, 10, 5⟩
            (initialState ⟨2025, 10, 5⟩)).2).2.current.articles
        = (saveArticles [InputArticle.mk (some "T") "https://example.com/a"
            "d" "Src" "2025-10-01" "Tech"] SavedBy.manual ⟨2025, 10, 5⟩
            (initialState ⟨2025, 10, 5⟩)).2.current.articles.filter
            (fun x => !(x.id == generateArticleId "https://example.com/a"))) :=
  ⟨by decide,
    ((deleteArticle_semantics
        (saveArticles [InputArticle.mk (some "T") "https://example.com/a" "d"
            "Src" "2025-10-01" "Tech"] SavedBy.manual ⟨2025, 10, 5⟩
            (initialState ⟨2025, 10, 5⟩)).2
        (generateArticleId "https://example.com/a")).2
      (mkSaved (InputArticle.mk (some "T") "https://example.com/a" "d" "Src"
          "2025-10-01" "Tech") ⟨2025, 10, 5⟩ SavedBy.manual)
      (by decide)).1,
    (((deleteArticle_semantics
        (saveArticles [InputArticle.mk (some "T") "https://example.com/a" "d"
            "Src" "2025-10-01" "Tech"] SavedBy.manual ⟨2025, 10, 5⟩
            (initialState ⟨2025, 10, 5⟩)).2
        (generateArticleId "https://example.com/a")).2
      (mkSaved (InputArticle.mk (some "T") "https://example.com/a" "d" "Src"
          "2025-10-01" "Tech") ⟨2025, 10, 5⟩ SavedBy.manual)
      (by decide)).2).1⟩

/-- C9 counterexample: the round-trip claim fails for the empty-string
category name.  Saving a record whose `category` is `""` (the store accepts
any string) puts `""` into the category statistics, but
`getCategoryFromSlug(slugify(""))` returns `null`: the JS expression
`found?.name || null` maps the found-but-empty name to `null`. -/
theorem slug_roundtrip_empty_cex :
    lookupD (saveArticles
        [InputArticle.mk (some "T") "https://example.com/e" "" "Src"
          "2025-10-01" ""]
        SavedBy.manual ⟨2025, 10, 5⟩
        (initialState ⟨2025, 10, 5⟩)).2.index.stats.byCategory "" = 1 ∧
    getCategoryFromSlug (saveArticles
        [InputArticle.mk (some "T") "https://example.com/e" "" "Src"
          "2025-10-01" ""]
        SavedBy.manual ⟨2025, 10, 5⟩
        (initialState ⟨2025, 10, 5⟩)).2.index (slugifyCategory "") = none := by
  constructor
  · decide
  · decide

theorem find?_exists {α : Type} (l : List α) (p : α → Bool)
    (h : ∃ x ∈ l, p x = true) :
    ∃ y, l.find? p = some y ∧ p y = true ∧ y ∈ l := by
  have hs : (l.find? p).isSome := List.find?_isSome.mpr h
  obtain ⟨y, hy⟩ := Option.isSome_iff_exists.mp hs
  exact ⟨y, hy, List.find?_some hy, List.mem_of_find?_eq_some hy⟩

/-- C9 as amended: for every category name `c` present in the category
statistics, provided no category name in the statistics is the empty string,
`unslug(slugify(c))` returns a non-null name that slugifies back to
`slugify(c)` (the exact original casing need not be recovered). -/
theorem slug_roundtrip_nonempty (idx : IndexData) (c : String)
    (hc : c ∈ idx.stats.byCategory.map Prod.fst)
    (hne : ∀ k ∈ idx.stats.byCategory.map Prod.fst, k ≠ "") :
    ∃ n, getCategoryFromSlug idx (slugifyCategory c) = some n ∧
      slugifyCategory n = slugifyCategory c := by
  obtain ⟨p, hp, hpc⟩ := List.mem_map.mp hc
  have hmem : (CategoryInfo.mk p.1 (slugifyCategory p.1) p.2)
      ∈ (idx.stats.byCategory.map
        (fun q => CategoryInfo.mk q.1 (slugifyCategory q.1) q.2)) :=
    List.mem_map.mpr ⟨p, hp, rfl⟩
  have hmem' : (CategoryInfo.mk p.1 (slugifyCategory p.1) p.2)
      ∈ getCategories idx := by
    unfold getCategories
    exact (List.perm_insertionSort _ _).mem_iff.mpr hmem
  obtain ⟨y, hfind, hpy, hymem⟩ := find?_exists (getCategories idx)
    (fun ci => ci.slug == slugifyCategory c)
    ⟨_, hmem', by simp [hpc]⟩
  have hyorig : y ∈ idx.stats.byCategory.map
      (fun q => CategoryInfo.mk q.1 (slugifyCategory q.1) q.2) := by
    unfold getCategories at hymem
    exact (List.perm_insertionSort _ _).mem_iff.mp hymem
  obtain ⟨q, hq, hqy⟩ := List.mem_map.mp hyorig
  have hname : y.name = q.1 := by rw [← hqy]
  have hslug : y.slug = slugifyCategory q.1 := by rw [← hqy]
  have hnonempty : y.name ≠ "" := by
    rw [hname]
    exact hne q.1 (List.mem_map.mpr ⟨q, hq, rfl⟩)
  have hy : y.slug = slugifyCategory c := by simpa using hpy
  refine ⟨y.name, ?_, ?_⟩
  · simp [getCategoryFromSlug, hfind, hnonempty]
  · rw [hname, ← hslug, hy]

/-- Witness for `slug_roundtrip_nonempty` on a store holding the category
`"IA & Data"`. -/
theorem slug_roundtrip_nonempty_witness :
    ("IA & Data" ∈ (saveArticles
        [InputArticle.mk (some "T") "https://example.com/w" "" "Src"
          "2025-10-01" "IA & Data"]
        SavedBy.manual ⟨2025, 10, 5⟩
        (initialState ⟨2025, 10, 5⟩)).2.index.stats.byCategory.map Prod.fst ∧
      (∀ k ∈ (saveArticles
          [InputArticle.mk (some "T") "https://example.com/w" "" "Src"
            "2025-10-01" "IA & Data"]
          SavedBy.manual ⟨2025, 10, 5⟩
          (initialState ⟨2025, 10, 5⟩)).2.index.stats.byCategory.map Prod.fst,
        k ≠ "")) ∧
    (∃ n, getCategoryFromSlug (saveArticles
          [InputArticle.mk (some "T") "https://example.com/w" "" "Src"
            "2025-10-01" "IA & Data"]
          SavedBy.manual ⟨2025, 10, 5⟩
          (initialState ⟨2025, 10, 5⟩)).2.index
          (slugifyCategory "IA & Data") = some n ∧
        slugifyCategory n = slugifyCategory "IA & Data") :=
  ⟨⟨by decide, by decide⟩,
    slug_roundtrip_nonempty (saveArticles
        [InputArticle.mk (some "T") "https://example.com/w" "" "Src"
          "2025-10-01" "IA & Data"]
        SavedBy.manual ⟨2025, 10, 5⟩
        (initialState ⟨2025, 10, 5⟩)).2.index
      "IA & Data" (by decide) (by decide)⟩

/-! ## Archiver: conservation (C4) -/

/-- All records stored in one archive month directory. -/
def dirArticles (d : ArchiveDir) : List SavedArticle :=
  (d.map (fun f => f.2.articles)).flatten

/-- All records stored across the archive tree. -/
def fsArticles (fs : ArchiveFS) : List SavedArticle :=
  (fs.map (fun e => dirArticles e.2)).flatten

/-- Every record the store holds in some partition (current file or an
archive week file). -/
def allRecords (s : StoreState) : List SavedArticle :=
  s.current.articles ++ fsArticles s.archives

/-- C4 counterexample: `archivePreviousMonth` does drop records.  In a store
whose current file holds one previous-month record and one record two months
old, archiving (at 2025-10-05) keeps the 2025-09 record but the 2025-08
record ends up in no partition at all, while `totalRecords` still counts
it. -/
theorem archive_drops_stale_record_cex :
    (StoreState.mk
        { totalArticles := 2
          urlIndex :=
            [("https://example.com/old", ⟨"2025-08", ⟨2025, 8, 15⟩⟩),
              ("https://example.com/prev", ⟨"2025-09", ⟨2025, 9, 10⟩⟩)]
          stats :=
            { byCategory := [("Tech", 2)]
              bySource := [("Src", 2)]
              byMonth := [("2025-08", 1), ("2025-09", 1)] }
          archives := [] }
        { month := "2025-09"
          articles :=
            [SavedArticle.mk "art_old" (some "Old") "https://example.com/old"
                "d" "Src" "2025-08-15" "Tech" ⟨2025, 8, 15⟩ SavedBy.manual,
              SavedArticle.mk "art_prev" (some "Prev")
                "https://example.com/prev" "d" "Src" "2025-09-10" "Tech"
                ⟨2025, 9, 10⟩ SavedBy.manual] }
        []).current.articles.head? = some (SavedArticle.mk "art_old"
          (some "Old") "https://example.com/old" "d" "Src" "2025-08-15"
          "Tech" ⟨2025, 8, 15⟩ SavedBy.manual) ∧
    ¬ (SavedArticle.mk "art_old" (some "Old") "https://example.com/old" "d"
        "Src" "2025-08-15" "Tech" ⟨2025, 8, 15⟩ SavedBy.manual)
      ∈ allRecords (archivePreviousMonth ⟨2025, 10, 5⟩
        (StoreState.mk
          { totalArticles := 2
            urlIndex :=
              [("https://example.com/old", ⟨"2025-08", ⟨2025, 8, 15⟩⟩),
                ("https://example.com/prev", ⟨"2025-09", ⟨2025, 9, 10⟩⟩)]
            stats :=
              { byCategory := [("Tech", 2)]
                bySource := [("Src", 2)]
                byMonth := [("2025-08", 1), ("2025-09", 1)] }
            archives := [] }
          { month := "2025-09"
            articles :=
              [SavedArticle.mk "art_old" (some "Old") "https://example.com/old"
                  "d" "Src" "2025-08-15" "Tech" ⟨2025, 8, 15⟩ SavedBy.manual,
                SavedArticle.mk "art_prev" (some "Prev")
                  "https://example.com/prev" "d" "Src" "2025-09-10" "Tech"
                  ⟨2025, 9, 10⟩ SavedBy.manual] }
          [])).2 ∧
    (archivePreviousMonth ⟨2025, 10, 5⟩
        (StoreState.mk
          { totalArticles := 2
            urlIndex :=
              [("https://example.com/old", ⟨"2025-08", ⟨2025, 8, 15⟩⟩),
                ("https://example.com/prev", ⟨"2025-09", ⟨2025, 9, 10⟩⟩)]
            stats :=
              { byCategory := [("Tech", 2)]
                bySource := [("Src", 2)]
                byMonth := [("2025-08", 1), ("2025-09", 1)] }
            archives := [] }
          { month := "2025-09"
            articles :=
              [SavedArticle.mk "art_old" (some "Old") "https://example.com/old"
                  "d" "Src" "2025-08-15" "Tech" ⟨2025, 8, 15⟩ SavedBy.manual,
                SavedArticle.mk "art_prev" (some "Prev")
                  "https://example.com/prev" "d" "Src" "2025-09-10" "Tech"
                  ⟨2025, 9, 10⟩ SavedBy.manual] }
          [])).2.index.totalArticles = 2 := by
  refine ⟨rfl, by decide, by decide⟩

theorem append3_ne (xs ys : List Char) (c1 c2 c3 d1 d2 d3 : Char)
    (h : ¬(c1 = d1 ∧ c2 = d2 ∧ c3 = d3)) :
    xs ++ [c1, c2, c3] ≠ ys ++ [d1, d2, d3] := by
  intro he
  have := (List.append_inj' he rfl).2
  simp only [List.cons.injEq, and_true] at this
  exact h ⟨this.1, this.2.1, this.2.2⟩

/-- The previous month's key is never the current month's key (for a valid
calendar month). -/
theorem prevMonthKey_ne (now : DateM) (h1 : 1 ≤ now.month)
    (h2 : now.month ≤ 12) : prevMonthKey now ≠ getMonthKey now := by
  obtain ⟨y, m, d⟩ := now
  dsimp only at h1 h2
  have q1 : (pad2 1).data = ['0', '1'] := rfl
  have q2 : (pad2 2).data = ['0', '2'] := rfl
  have q3 : (pad2 3).data = ['0', '3'] := rfl
  have q4 : (pad2 4).data = ['0', '4'] := rfl
  have q5 : (pad2 5).data = ['0', '5'] := rfl
  have q6 : (pad2 6).data = ['0', '6'] := rfl
  have q7 : (pad2 7).data = ['0', '7'] := rfl
  have q8 : (pad2 8).data = ['0', '8'] := rfl
  have q9 : (pad2 9).data = ['0', '9'] := rfl
  have q10 : (pad2 10).data = ['1', '0'] := rfl
  have q11 : (pad2 11).data = ['1', '1'] := rfl
  have q12 : (pad2 12).data = ['1', '2'] := rfl
  have qdash : ("-" : String).data = ['-'] := rfl
  interval_cases m
  all_goals intro heq
  all_goals have hd := congrArg String.data heq
  all_goals unfold prevMonthKey getMonthKey at hd
  all_goals dsimp only at hd
  all_goals simp only [Nat.reduceEqDiff,
    Nat.reduceSub, reduceIte, eq_self_iff_true, if_true, if_false,
    String.data_append, List.append_assoc, qdash,
    List.singleton_append, List.cons_append, List.nil_append,
    q1, q2, q3, q4, q5, q6, q7, q8, q9, q10, q11, q12] at hd
  all_goals exact append3_ne _ _ _ _ _ _ _ _ (by decide) hd

theorem mem_insertAsc (n : Nat) (l : List Nat) (x : Nat) :
    x ∈ insertAsc n l ↔ x = n ∨ x ∈ l := by
  induction l with
  | nil => simp [insertAsc]
  | cons m rest ih =>
    unfold insertAsc
    by_cases h1 : n < m
    · simp [h1] <;> tauto
    · by_cases h2 : n = m
      · subst h2
        simp [h1] <;> tauto
      · simp [h1, h2, ih] <;> tauto

theorem insertAsc_sorted (n : Nat) (l : List Nat) (h : l.Sorted (· < ·)) :
    (insertAsc n l).Sorted (· < ·) := by
  induction l with
  | nil => simp [insertAsc]
  | cons m rest ih =>
    rw [List.sorted_cons] at h
    by_cases h1 : n < m
    · simp only [insertAsc, h1, if_pos]
      rw [List.sorted_cons]
      refine ⟨?_, List.sorted_cons.mpr h⟩
      intro b hb
      rcases List.mem_cons.mp hb with rfl | hb
      · exact h1
      · exact h1.trans (h.1 b hb)
    · by_cases h2 : n = m
      · subst h2
        simp only [insertAsc, h1, lt_irrefl, if_neg, if_pos rfl]
        exact List.sorted_cons.mpr h
      · have h3 : m < n := by omega
        simp only [insertAsc, h1, h2, if_neg, if_false]
        rw [List.sorted_cons]
        refine ⟨?_, ih h.2⟩
        intro b hb
        rcases (mem_insertAsc n rest b).mp hb with rfl | hb
        · exact h3
        · exact h.1 b hb

theorem foldl_insertAsc_sorted :
    ∀ (arts : List SavedArticle) (acc : List Nat), acc.Sorted (· < ·) →
      (arts.foldl (fun acc a => insertAsc (getWeekOfMonth a.savedAt) acc)
        acc).Sorted (· < ·)
  | [], acc, h => h
  | a :: rest, acc, h =>
    foldl_insertAsc_sorted rest _ (insertAsc_sorted _ _ h)

theorem weekNumsOf_sorted (arts : List SavedArticle) :
    (weekNumsOf arts).Sorted (· < ·) :=
  foldl_insertAsc_sorted arts [] (by simp)

theorem weekNumsOf_nodup (arts : List SavedArticle) :
    (weekNumsOf arts).Nodup :=
  (weekNumsOf_sorted arts).nodup

theorem mem_foldl_insertAsc_of_mem :
    ∀ (arts : List SavedArticle) (acc : List Nat) (x : Nat), x ∈ acc →
      x ∈ arts.foldl (fun acc a => insertAsc (getWeekOfMonth a.savedAt) acc) acc
  | [], _, _, h => h
  | a :: rest, acc, x, h =>
    mem_foldl_insertAsc_of_mem rest _ x ((mem_insertAsc _ _ _).mpr (Or.inr h))

theorem weekNumsOf_covers_aux :
    ∀ (arts : List SavedArticle) (acc : List Nat) (a : SavedArticle),
      a ∈ arts →
      getWeekOfMonth a.savedAt
        ∈ arts.foldl (fun acc a => insertAsc (getWeekOfMonth a.savedAt) acc) acc
  | b :: rest, acc, a, h => by
    rcases List.mem_cons.mp h with rfl | h
    · exact mem_foldl_insertAsc_of_mem rest _ _
        ((mem_insertAsc _ _ _).mpr (Or.inl rfl))
    · exact weekNumsOf_covers_aux rest _ a h

theorem weekNumsOf_covers (arts : List SavedArticle) (a : SavedArticle)
    (h : a ∈ arts) : getWeekOfMonth a.savedAt ∈ weekNumsOf arts :=
  weekNumsOf_covers_aux arts [] a h

theorem weekNumsOf_mem_aux :
    ∀ (arts : List SavedArticle) (acc : List Nat) (x : Nat),
      x ∈ arts.foldl (fun acc a => insertAsc (getWeekOfMonth a.savedAt) acc) acc →
      x ∈ acc ∨ ∃ a ∈ arts, getWeekOfMonth a.savedAt = x
  | [], acc, x, h => Or.inl h
  | b :: rest, acc, x, h => by
    rcases weekNumsOf_mem_aux rest _ x h with h' | ⟨a, ha, hw⟩
    · rcases (mem_insertAsc _ _ _).mp h' with rfl | h''
      · exact Or.inr ⟨b, by simp, rfl⟩
      · exact Or.inl h''
    · exact Or.inr ⟨a, by simp [ha], hw⟩

theorem weekNumsOf_mem (arts : List SavedArticle) (x : Nat)
    (h : x ∈ weekNumsOf arts) :
    ∃ a ∈ arts, getWeekOfMonth a.savedAt = x := by
  rcases weekNumsOf_mem_aux arts [] x h with h' | h'
  · simp at h'
  · exact h'

theorem dayOfWeek_lt (y m q : Nat) : dayOfWeek y m q < 7 := by
  simp only [dayOfWeek]
  omega

theorem getWeekOfMonth_bounds (d : DateM) (h1 : 1 ≤ d.day)
    (h2 : d.day ≤ 31) : 1 ≤ getWeekOfMonth d ∧ getWeekOfMonth d ≤ 6 := by
  have := dayOfWeek_lt d.year d.month 1
  unfold getWeekOfMonth
  omega

theorem weekFileName_inj_on (w1 w2 : Nat) (h11 : 1 ≤ w1) (h12 : w1 ≤ 6)
    (h21 : 1 ≤ w2) (h22 : w2 ≤ 6) (he : weekFileName w1 = weekFileName w2) :
    w1 = w2 := by
  interval_cases w1 <;> interval_cases w2 <;> revert he <;> decide

theorem alookup_cons {β : Type} (k0 : String) (v0 : β)
    (rest : List (String × β)) (k : String) :
    alookup ((k0, v0) :: rest) k
      = if k0 == k then some v0 else alookup rest k := by
  by_cases h : k0 == k <;> simp [alookup, List.find?, h]

theorem aset_append_of_none {β : Type} (l : List (String × β)) (k : String)
    (v : β) (h : alookup l k = none) : aset l k v = l ++ [(k, v)] := by
  induction l with
  | nil => rfl
  | cons p rest ih =>
    obtain ⟨k0, v0⟩ := p
    rw [alookup_cons] at h
    by_cases h0 : k0 == k
    · simp [h0] at h
    · simp only [h0, Bool.false_eq_true, if_false] at h
      simp [aset, h0, ih h]

theorem alookup_append_single_none {β : Type} (l : List (String × β))
    (k0 : String) (v0 : β) (k : String) (h : alookup l k = none)
    (hk : (k0 == k) = false) : alookup (l ++ [(k0, v0)]) k = none := by
  induction l with
  | nil => simp [alookup, List.find?, hk]
  | cons p rest ih =>
    obtain ⟨k1, v1⟩ := p
    rw [alookup_cons] at h
    by_cases h1 : k1 == k
    · simp [h1] at h
    · simp only [h1, Bool.false_eq_true, if_false] at h
      simpa [List.cons_append, alookup_cons, h1] using ih h

theorem foldl_aset_fresh {β : Type} (name : Nat → String) (file : Nat → β) :
    ∀ (ks : List Nat) (acc : List (String × β)),
      (∀ w ∈ ks, alookup acc (name w) = none) → (ks.map name).Nodup →
      ks.foldl (fun d w => aset d (name w) (file w)) acc
        = acc ++ ks.map (fun w => (name w, file w))
  | [], acc, _, _ => by simp
  | k :: rest, acc, hfresh, hnd => by
    have h1 : alookup acc (name k) = none := hfresh k (by simp)
    have hhead : ¬ name k ∈ rest.map name :=
      (List.nodup_cons.mp (by simpa using hnd)).1
    have hnd' : (rest.map name).Nodup :=
      (List.nodup_cons.mp (by simpa using hnd)).2
    have hfresh' : ∀ w ∈ rest,
        alookup (acc ++ [(name k, file k)]) (name w) = none := by
      intro w hw
      refine alookup_append_single_none acc _ _ _ (hfresh w (by simp [hw])) ?_
      have hmem : name w ∈ rest.map name := List.mem_map.mpr ⟨w, hw, rfl⟩
      simpa using fun hc => hhead (by rw [hc]; exact hmem)
    rw [List.foldl_cons, aset_append_of_none acc _ _ h1,
      foldl_aset_fresh name file rest _ hfresh' hnd']
    simp

theorem flatten_filter_perm {α : Type} (key : α → Nat) :
    ∀ (ks : List Nat) (l : List α), ks.Nodup → (∀ x ∈ l, key x ∈ ks) →
      List.Perm
        ((ks.map (fun k => l.filter (fun x => key x == k))).flatten) l
  | [], l, _, hcov => by
    have : l = [] := by
      cases l with
      | nil => rfl
      | cons a t => exact absurd (hcov a (by simp)) (by simp)
    simp [this]
  | k :: ks, l, hnd, hcov => by
    obtain ⟨hk, hnd'⟩ := List.nodup_cons.mp hnd
    have hmap : ks.map (fun k' => l.filter (fun x => key x == k'))
        = ks.map (fun k' =>
            (l.filter (fun x => !(key x == k))).filter
              (fun x => key x == k')) := by
      apply List.map_congr_left
      intro k' hk'
      rw [List.filter_filter]
      apply List.filter_congr
      intro x _
      by_cases hx : key x == k'
      · have hxk' : key x = k' := by simpa using hx
        have hne : k' ≠ k := fun hc => hk (hc ▸ hk')
        have hfalse : (key x == k) = false := by
          simpa [hxk'] using hne
        simp [hx, hfalse]
      · simp [hx]
    have hcov' : ∀ x ∈ l.filter (fun x => !(key x == k)), key x ∈ ks := by
      intro x hx
      obtain ⟨hxl, hxk⟩ := List.mem_filter.mp hx
      rcases List.mem_cons.mp (hcov x hxl) with h | h
      · simp [h] at hxk
      · exact h
    have ih := flatten_filter_perm key ks
      (l.filter (fun x => !(key x == k))) hnd' hcov'
    rw [List.map_cons, List.flatten_cons, hmap]
    exact (List.Perm.append_left _ ih).trans (List.filter_append_perm _ l)

theorem fsArticles_append_single (fs : ArchiveFS) (k : String)
    (d : ArchiveDir) :
    fsArticles (fs ++ [(k, d)]) = fsArticles fs ++ dirArticles d := by
  simp [fsArticles]

theorem dirArticles_weekFiles (K : String) (P : List SavedArticle) :
    dirArticles
        ((weekNumsOf P).map (fun w => (weekFileName w, weekFileOf K P w)))
      = ((weekNumsOf P).map
          (fun w => P.filter (fun a => getWeekOfMonth a.savedAt == w))).flatten := by
  unfold dirArticles weekFileOf
  rw [List.map_map]
  rfl

/-- Record conservation of a non-degenerate archive run: when every
current-file record belongs to the previous or the current month (all with
valid calendar days) and no archive directory exists yet for the previous
month, archiving only relocates records — the multiset of records across all
partitions is unchanged. -/
theorem archive_conservation_core (now : DateM) (s : StoreState)
    (hm1 : 1 ≤ now.month) (hm2 : now.month ≤ 12)
    (hdays : ∀ a ∈ s.current.articles, 1 ≤ a.savedAt.day ∧ a.savedAt.day ≤ 31)
    (hcover : ∀ a ∈ s.current.articles,
      getMonthKey a.savedAt = prevMonthKey now
        ∨ getMonthKey a.savedAt = getMonthKey now)
    (hnoarch : alookup s.archives (prevMonthKey now) = none) :
    List.Perm (allRecords (archivePreviousMonth now s).2) (allRecords s) := by
  by_cases hP : (prevMonthArticles now s).length = 0
  · simp [archivePreviousMonth, hP]
  · have hne := prevMonthKey_ne now hm1 hm2
    have hwbound : ∀ w ∈ weekNumsOf (prevMonthArticles now s),
        1 ≤ w ∧ w ≤ 6 := by
      intro w hw
      obtain ⟨a, haP, hwa⟩ := weekNumsOf_mem _ w hw
      have haarts : a ∈ s.current.articles := List.mem_of_mem_filter haP
      have hb := getWeekOfMonth_bounds a.savedAt (hdays a haarts).1
        (hdays a haarts).2
      exact hwa ▸ hb
    have hndnames :
        ((weekNumsOf (prevMonthArticles now s)).map weekFileName).Nodup :=
      (weekNumsOf_nodup _).map_on
        (fun w1 h1 w2 h2 he => weekFileName_inj_on w1 w2 (hwbound w1 h1).1
          (hwbound w1 h1).2 (hwbound w2 h2).1 (hwbound w2 h2).2 he)
    have hdir : writeWeekFiles (prevMonthKey now) (prevMonthArticles now s) []
        = (weekNumsOf (prevMonthArticles now s)).map
            (fun w => (weekFileName w,
              weekFileOf (prevMonthKey now) (prevMonthArticles now s) w)) := by
      unfold writeWeekFiles
      rw [foldl_aset_fresh weekFileName
        (weekFileOf (prevMonthKey now) (prevMonthArticles now s))
        (weekNumsOf (prevMonthArticles now s)) [] (fun w _ => rfl) hndnames]
      simp
    have hdirP : List.Perm
        (dirArticles ((weekNumsOf (prevMonthArticles now s)).map
          (fun w => (weekFileName w,
            weekFileOf (prevMonthKey now) (prevMonthArticles now s) w))))
        (prevMonthArticles now s) := by
      rw [dirArticles_weekFiles]
      exact flatten_filter_perm _ _ _ (weekNumsOf_nodup _)
        (fun x hx => weekNumsOf_covers _ x hx)
    have hfilterC : s.current.articles.filter
        (fun a => !(getMonthKey a.savedAt == prevMonthKey now))
        = currentMonthArticles now s := by
      apply List.filter_congr
      intro a ha
      rcases hcover a ha with h | h
      · have h1 : (getMonthKey a.savedAt == prevMonthKey now) = true := by
          simpa using h
        have h2 : (getMonthKey a.savedAt == getMonthKey now) = false := by
          simpa [h] using hne
        simp [h1, h2]
      · have h2 : (getMonthKey a.savedAt == getMonthKey now) = true := by
          simpa using h
        have h1 : (getMonthKey a.savedAt == prevMonthKey now) = false := by
          rw [h]
          simpa using fun hc => hne hc.symm
        simp [h1, h2]
    have hPC : List.Perm
        (prevMonthArticles now s ++ currentMonthArticles now s)
        s.current.articles := by
      rw [← hfilterC]
      exact List.filter_append_perm _ _
    have hdir0 : (alookup s.archives (prevMonthKey now)).getD [] = [] := by
      rw [hnoarch]
      rfl
    have hs1 : (archivePreviousMonth now s).2 = archiveApply now s := by
      simp [archivePreviousMonth, hP]
    rw [hs1]
    unfold allRecords archiveApply
    simp only [hdir0, hdir, aset_append_of_none _ _ _ hnoarch,
      fsArticles_append_single]
    refine List.Perm.trans
      (List.Perm.append_left _ (List.Perm.append_left _ hdirP)) ?_
    refine List.Perm.trans
      (List.Perm.append_left _ List.perm_append_comm) ?_
    rw [← List.append_assoc]
    exact (List.Perm.append_right _ List.perm_append_comm).trans
      (List.Perm.append_right _ hPC)

/-- C4 as amended: `totalRecords` is unchanged by `archivePreviousMonth`
(unconditionally).  Archiving relocates rather than creates or drops records
only under the provisos that every Period-Store record belongs to the
previous or current calendar month (records older than that are dropped from
all partitions, as the counterexample shows) and that no archive directory
already exists for the previous month. -/
theorem archive_preserves_totalRecords (now : DateM) (s : StoreState) :
    (archivePreviousMonth now s).2.index.totalArticles
      = s.index.totalArticles ∧
    (1 ≤ now.month → now.month ≤ 12 →
      (∀ a ∈ s.current.articles, 1 ≤ a.savedAt.day ∧ a.savedAt.day ≤ 31) →
      (∀ a ∈ s.current.articles,
        getMonthKey a.savedAt = prevMonthKey now
          ∨ getMonthKey a.savedAt = getMonthKey now) →
      alookup s.archives (prevMonthKey now) = none →
      List.Perm (allRecords (archivePreviousMonth now s).2) (allRecords s)) := by
  constructor
  · by_cases hP : (prevMonthArticles now s).length = 0 <;>
      simp [archivePreviousMonth, archiveApply, hP]
  · intro hm1 hm2 hdays hcover hnoarch
    exact archive_conservation_core now s hm1 hm2 hdays hcover hnoarch

/-- Witness for `archive_preserves_totalRecords` on a store holding one
previous-month and one current-month record, with an empty archive tree. -/
theorem archive_preserves_totalRecords_witness :
    (1 ≤ (DateM.mk 2025 10 5).month ∧ (DateM.mk 2025 10 5).month ≤ 12 ∧
      (∀ a ∈ (StoreState.mk
          { totalArticles := 2
            urlIndex := []
            stats := { byCategory := [], bySource := [], byMonth := [] }
            archives := [] }
          { month := "2025-09"
            articles :=
              [SavedArticle.mk "a1" (some "P") "https://ex.com/p" "d" "S"
                  "2025-09-10" "Tech" ⟨2025, 9, 10⟩ SavedBy.manual,
                SavedArticle.mk "a2" (some "C") "https://ex.com/c" "d" "S"
                  "2025-10-02" "Tech" ⟨2025, 10, 2⟩ SavedBy.manual] }
          []).current.articles, 1 ≤ a.savedAt.day ∧ a.savedAt.day ≤ 31) ∧
      (∀ a ∈ (StoreState.mk
          { totalArticles := 2
            urlIndex := []
            stats := { byCategory := [], bySource := [], byMonth := [] }
            archives := [] }
          { month := "2025-09"
            articles :=
              [SavedArticle.mk "a1" (some "P") "https://ex.com/p" "d" "S"
                  "2025-09-10" "Tech" ⟨2025, 9, 10⟩ SavedBy.manual,
                SavedArticle.mk "a2" (some "C") "https://ex.com/c" "d" "S"
                  "2025-10-02" "Tech" ⟨2025, 10, 2⟩ SavedBy.manual] }
          []).current.articles,
        getMonthKey a.savedAt = prevMonthKey (DateM.mk 2025 10 5)
          ∨ getMonthKey a.savedAt = getMonthKey (DateM.mk 2025 10 5)) ∧
      alookup (StoreState.mk
          { totalArticles := 2
            urlIndex := []
            stats := { byCategory := [], bySource := [], byMonth := [] }
            archives := [] }
          { month := "2025-09"
            articles :=
              [SavedArticle.mk "a1" (some "P") "https://ex.com/p" "d" "S"
                  "2025-09-10" "Tech" ⟨2025, 9, 10⟩ SavedBy.manual,
                SavedArticle.mk "a2" (some "C") "https://ex.com/c" "d" "S"
                  "2025-10-02" "Tech" ⟨2025, 10, 2⟩ SavedBy.manual] }
          []).archives (prevMonthKey (DateM.mk 2025 10 5)) = none) ∧
    ((archivePreviousMonth (DateM.mk 2025 10 5) (StoreState.mk
          { totalArticles := 2
            urlIndex := []
            stats := { byCategory := [], bySource := [], byMonth := [] }
            archives := [] }
          { month := "2025-09"
            articles :=
              [SavedArticle.mk "a1" (some "P") "https://ex.com/p" "d" "S"
                  "2025-09-10" "Tech" ⟨2025, 9, 10⟩ SavedBy.manual,
                SavedArticle.mk "a2" (some "C") "https://ex.com/c" "d" "S"
                  "2025-10-02" "Tech" ⟨2025, 10, 2⟩ SavedBy.manual] }
          [])).2.index.totalArticles = (StoreState.mk
          { totalArticles := 2
            urlIndex := []
            stats := { byCategory := [], bySource := [], byMonth := [] }
            archives := [] }
          { month := "2025-09"
            articles :=
              [SavedArticle.mk "a1" (some "P") "https://ex.com/p" "d" "S"
                  "2025-09-10" "Tech" ⟨2025, 9, 10⟩ SavedBy.manual,
                SavedArticle.mk "a2" (some "C") "https://ex.com/c" "d" "S"
                  "2025-10-02" "Tech" ⟨2025, 10, 2⟩ SavedBy.manual] }
          []).index.totalArticles ∧
      List.Perm
        (allRecords (archivePreviousMonth (DateM.mk 2025 10 5) (StoreState.mk
          { totalArticles := 2
            urlIndex := []
            stats := { byCategory := [], bySource := [], byMonth := [] }
            archives := [] }
          { month := "2025-09"
            articles :=
              [SavedArticle.mk "a1" (some "P") "https://ex.com/p" "d" "S"
                  "2025-09-10" "Tech" ⟨2025, 9, 10⟩ SavedBy.manual,
                SavedArticle.mk "a2" (some "C") "https://ex.com/c" "d" "S"
                  "2025-10-02" "Tech" ⟨2025, 10, 2⟩ SavedBy.manual] }
          [])).2)
        (allRecords (StoreState.mk
          { totalArticles := 2
            urlIndex := []
            stats := { byCategory := [], bySource := [], byMonth := [] }
            archives := [] }
          { month := "2025-09"
            articles :=
              [SavedArticle.mk "a1" (some "P") "https://ex.com/p" "d" "S"
                  "2025-09-10" "Tech" ⟨2025, 9, 10⟩ SavedBy.manual,
                SavedArticle.mk "a2" (some "C") "https://ex.com/c" "d" "S"
                  "2025-10-02" "Tech" ⟨2025, 10, 2⟩ SavedBy.manual] }
          []))) :=
  ⟨⟨by decide, by decide, by decide, by decide, by decide⟩,
    (archive_preserves_totalRecords (DateM.mk 2025 10 5) _).1,
    (archive_preserves_totalRecords (DateM.mk 2025 10 5) _).2
      (by decide) (by decide) (by decide) (by decide) (by decide)⟩

/-! ## Archiver: re-run semantics (C5) -/

theorem alookup_aset_self {β : Type} (l : List (String × β)) (k : String)
    (v : β) : alookup (aset l k v) k = some v := by
  induction l with
  | nil => simp [aset, alookup_cons]
  | cons p rest ih =>
    obtain ⟨k0, v0⟩ := p
    by_cases h0 : k0 == k
    · simp [aset, h0, alookup_cons]
    · simp [aset, h0, alookup_cons, ih]

theorem alookup_aset_ne {β : Type} (l : List (String × β)) (k k' : String)
    (v : β) (h : k' ≠ k) : alookup (aset l k v) k' = alookup l k' := by
  have hkk : (k == k') = false := by simpa using fun hc => h hc.symm
  induction l with
  | nil => simp [aset, alookup_cons, hkk]
  | cons p rest ih =>
    obtain ⟨k0, v0⟩ := p
    by_cases h0 : k0 == k
    · have h0' : k0 = k := by simpa using h0
      subst h0'
      simp [aset, alookup_cons, hkk]
    · simp [aset, h0, alookup_cons, ih]

theorem alookup_foldl_aset_notmem {β : Type} (name : Nat → String)
    (file : Nat → β) :
    ∀ (ks : List Nat) (acc : List (String × β)) (x : String),
      ¬ x ∈ ks.map name →
      alookup (ks.foldl (fun d k => aset d (name k) (file k)) acc) x
        = alookup acc x
  | [], _, _, _ => rfl
  | k :: rest, acc, x, h => by
    simp only [List.map_cons, List.mem_cons] at h
    push_neg at h
    rw [List.foldl_cons,
      alookup_foldl_aset_notmem name file rest _ x (by simpa using h.2),
      alookup_aset_ne acc (name k) x (file k) h.1]

theorem alookup_foldl_aset {β : Type} (name : Nat → String) (file : Nat → β) :
    ∀ (ks : List Nat) (acc : List (String × β)) (w : Nat), w ∈ ks →
      (ks.map name).Nodup →
      alookup (ks.foldl (fun d k => aset d (name k) (file k)) acc) (name w)
        = some (file w)
  | [], _, _, hw, _ => by simp at hw
  | k :: rest, acc, w, hw, hnd => by
    have hhead : ¬ name k ∈ rest.map name :=
      (List.nodup_cons.mp (by simpa using hnd)).1
    have hnd' : (rest.map name).Nodup :=
      (List.nodup_cons.mp (by simpa using hnd)).2
    rcases List.mem_cons.mp hw with rfl | hw'
    · rw [List.foldl_cons,
        alookup_foldl_aset_notmem name file rest _ _ hhead,
        alookup_aset_self]
    · rw [List.foldl_cons]
      exact alookup_foldl_aset name file rest _ w hw' hnd'

theorem find?_updateFirst {α : Type} (p : α → Bool) (f : α → α)
    (hf : ∀ x, p x = true → p (f x) = true) :
    ∀ l : List α, (updateFirst p f l).find? p = (l.find? p).map f
  | [] => rfl
  | x :: rest => by
    by_cases hx : p x
    · simp [updateFirst, hx, List.find?, hf x hx]
    · simp only [updateFirst, hx, Bool.false_eq_true, if_false]
      simp [List.find?, hx, find?_updateFirst p f hf rest]

/-- C5 counterexample: a re-run does not merge.  The store already has an
archive for 2025-09 (`week-03.json` holding one record, entry count 1) and
one new 2025-09 record in the current file; after `archivePreviousMonth`
(at 2025-10-05) the entry's count is 1 — not 2 — and the previously archived
record is gone from every partition: `week-03.json` was overwritten with only
the new record. -/
theorem archive_rerun_overwrites_cex :
    ((archivePreviousMonth ⟨2025, 10, 5⟩ (StoreState.mk
        { totalArticles := 2
          urlIndex := []
          stats := { byCategory := [], bySource := [], byMonth := [] }
          archives := [{ month := "2025-09", weeks := ["week-03.json"]
                         articleCount := 1 }] }
        { month := "2025-09"
          articles :=
            [SavedArticle.mk "aNew" (some "N") "https://ex.com/n" "d" "S"
              "2025-09-20" "Tech" ⟨2025, 9, 20⟩ SavedBy.manual] }
        [("2025-09",
          [("week-03.json",
            MonthFile.mk "2025-09"
              [SavedArticle.mk "aArch" (some "A") "https://ex.com/a" "d" "S"
                "2025-09-16" "Tech" ⟨2025, 9, 16⟩ SavedBy.manual])])])).2.index.archives.find?
        (fun e => e.month == "2025-09")).map ArchiveEntry.articleCount
      = some 1 ∧
    (SavedArticle.mk "aArch" (some "A") "https://ex.com/a" "d" "S"
        "2025-09-16" "Tech" ⟨2025, 9, 16⟩ SavedBy.manual)
      ∈ allRecords (StoreState.mk
        { totalArticles := 2
          urlIndex := []
          stats := { byCategory := [], bySource := [], byMonth := [] }
          archives := [{ month := "2025-09", weeks := ["week-03.json"]
                         articleCount := 1 }] }
        { month := "2025-09"
          articles :=
            [SavedArticle.mk "aNew" (some "N") "https://ex.com/n" "d" "S"
              "2025-09-20" "Tech" ⟨2025, 9, 20⟩ SavedBy.manual] }
        [("2025-09",
          [("week-03.json",
            MonthFile.mk "2025-09"
              [SavedArticle.mk "aArch" (some "A") "https://ex.com/a" "d" "S"
                "2025-09-16" "Tech" ⟨2025, 9, 16⟩ SavedBy.manual])])]) ∧
    ¬ (SavedArticle.mk "aArch" (some "A") "https://ex.com/a" "d" "S"
        "2025-09-16" "Tech" ⟨2025, 9, 16⟩ SavedBy.manual)
      ∈ allRecords (archivePreviousMonth ⟨2025, 10, 5⟩ (StoreState.mk
        { totalArticles := 2
          urlIndex := []
          stats := { byCategory := [], bySource := [], byMonth := [] }
          archives := [{ month := "2025-09", weeks := ["week-03.json"]
                         articleCount := 1 }] }
        { month := "2025-09"
          articles :=
            [SavedArticle.mk "aNew" (some "N") "https://ex.com/n" "d" "S"
              "2025-09-20" "Tech" ⟨2025, 9, 20⟩ SavedBy.manual] }
        [("2025-09",
          [("week-03.json",
            MonthFile.mk "2025-09"
              [SavedArticle.mk "aArch" (some "A") "https://ex.com/a" "d" "S"
                "2025-09-16" "Tech" ⟨2025, 9, 16⟩ SavedBy.manual])])])).2 := by
  refine ⟨by decide, by decide, by decide⟩

/-- C5 as amended: re-running the archiver for a month with an existing
archive entry replaces instead of merging — the entry keeps its month but
its week list and record count are overwritten with only the newly archived
records, and each occupied week's file is rewritten to hold exactly the new
records of that week (previously archived records in those files are
discarded, not merged). -/
theorem archive_rerun_replaces_entry (now : DateM) (s : StoreState)
    (hP : ¬ (prevMonthArticles now s).length = 0)
    (hexist : s.index.archives.any
      (fun e => e.month == prevMonthKey now) = true)
    (hdays : ∀ a ∈ prevMonthArticles now s,
      1 ≤ a.savedAt.day ∧ a.savedAt.day ≤ 31) :
    (archivePreviousMonth now s).2.index.archives.find?
        (fun e => e.month == prevMonthKey now)
      = (s.index.archives.find? (fun e => e.month == prevMonthKey now)).map
          (fun e =>
            { e with
              weeks := (weekNumsOf (prevMonthArticles now s)).map weekFileName
              articleCount := (prevMonthArticles now s).length }) ∧
    (∀ w ∈ weekNumsOf (prevMonthArticles now s),
      alookup ((alookup (archivePreviousMonth now s).2.archives
          (prevMonthKey now)).getD []) (weekFileName w)
        = some (weekFileOf (prevMonthKey now)
            (prevMonthArticles now s) w)) := by
  have hwbound : ∀ w ∈ weekNumsOf (prevMonthArticles now s),
      1 ≤ w ∧ w ≤ 6 := by
    intro w hw
    obtain ⟨a, haP, hwa⟩ := weekNumsOf_mem _ w hw
    exact hwa ▸ getWeekOfMonth_bounds a.savedAt (hdays a haP).1 (hdays a haP).2
  have hndnames :
      ((weekNumsOf (prevMonthArticles now s)).map weekFileName).Nodup :=
    (weekNumsOf_nodup _).map_on
      (fun w1 h1 w2 h2 he => weekFileName_inj_on w1 w2 (hwbound w1 h1).1
        (hwbound w1 h1).2 (hwbound w2 h2).1 (hwbound w2 h2).2 he)
  have hs1 : (archivePreviousMonth now s).2 = archiveApply now s := by
    simp [archivePreviousMonth, hP]
  rw [hs1]
  constructor
  · show (updatedIndexArchives s.index (prevMonthKey now) _ _).find? _ = _
    unfold updatedIndexArchives
    rw [if_pos hexist]
    exact find?_updateFirst _ _ (fun e he => by simpa using he) _
  · intro w hw
    show alookup ((alookup (aset s.archives (prevMonthKey now)
          (writeWeekFiles (prevMonthKey now) (prevMonthArticles now s)
            ((alookup s.archives (prevMonthKey now)).getD [])))
        (prevMonthKey now)).getD []) (weekFileName w) = _
    rw [alookup_aset_self]
    show alookup (writeWeekFiles _ _ _) _ = _
    unfold writeWeekFiles
    exact alookup_foldl_aset weekFileName _ _ _ w hw hndnames

/-- Witness for `archive_rerun_replaces_entry` at the re-run store of the
counterexample. -/
theorem archive_rerun_replaces_entry_witness :
    ((¬ (prevMonthArticles ⟨2025, 10, 5⟩ (StoreState.mk
        { totalArticles := 2
          urlIndex := []
          stats := { byCategory := [], bySource := [], byMonth := [] }
          archives := [{ month := "2025-09", weeks := ["week-03.json"]
                         articleCount := 1 }] }
        { month := "2025-09"
          articles :=
            [SavedArticle.mk "aNew" (some "N") "https://ex.com/n" "d" "S"
              "2025-09-20" "Tech" ⟨2025, 9, 20⟩ SavedBy.manual] }
        [("2025-09",
          [("week-03.json",
            MonthFile.mk "2025-09"
              [SavedArticle.mk "aArch" (some "A") "https://ex.com/a" "d" "S"
                "2025-09-16" "Tech" ⟨2025, 9, 16⟩ SavedBy.manual])])])).length
        = 0) ∧
      (StoreState.mk
        { totalArticles := 2
          urlIndex := []
          stats := { byCategory := [], bySource := [], byMonth := [] }
          archives := [{ month := "2025-09", weeks := ["week-03.json"]
                         articleCount := 1 }] }
        { month := "2025-09"
          articles :=
            [SavedArticle.mk "aNew" (some "N") "https://ex.com/n" "d" "S"
              "2025-09-20" "Tech" ⟨2025, 9, 20⟩ SavedBy.manual] }
        [("2025-09",
          [("week-03.json",
            MonthFile.mk "2025-09"
              [SavedArticle.mk "aArch" (some "A") "https://ex.com/a" "d" "S"
                "2025-09-16" "Tech" ⟨2025, 9, 16⟩
                SavedBy.manual])])]).index.archives.any
        (fun e => e.month == prevMonthKey ⟨2025, 10, 5⟩) = true ∧
      (∀ a ∈ prevMonthArticles ⟨2025, 10, 5⟩ (StoreState.mk
        { totalArticles := 2
          urlIndex := []
          stats := { byCategory := [], bySource := [], byMonth := [] }
          archives := [{ month := "2025-09", weeks := ["week-03.json"]
                         articleCount := 1 }] }
        { month := "2025-09"
          articles :=
            [SavedArticle.mk "aNew" (some "N") "https://ex.com/n" "d" "S"
              "2025-09-20" "Tech" ⟨2025, 9, 20⟩ SavedBy.manual] }
        [("2025-09",
          [("week-03.json",
            MonthFile.mk "2025-09"
              [SavedArticle.mk "aArch" (some "A") "https://ex.com/a" "d" "S"
                "2025-09-16" "Tech" ⟨2025, 9, 16⟩ SavedBy.manual])])]),
        1 ≤ a.savedAt.day ∧ a.savedAt.day ≤ 31)) ∧
    ((archivePreviousMonth ⟨2025, 10, 5⟩ (StoreState.mk
        { totalArticles := 2
          urlIndex := []
          stats := { byCategory := [], bySource := [], byMonth := [] }
          archives := [{ month := "2025-09", weeks := ["week-03.json"]
                         articleCount := 1 }] }
        { month := "2025-09"
          articles :=
            [SavedArticle.mk "aNew" (some "N") "https://ex.com/n" "d" "S"
              "2025-09-20" "Tech" ⟨2025, 9, 20⟩ SavedBy.manual] }
        [("2025-09",
          [("week-03.json",
            MonthFile.mk "2025-09"
              [SavedArticle.mk "aArch" (some "A") "https://ex.com/a" "d" "S"
                "2025-09-16" "Tech" ⟨2025, 9, 16⟩
                SavedBy.manual])])])).2.index.archives.find?
        (fun e => e.month == prevMonthKey ⟨2025, 10, 5⟩)
      = ((StoreState.mk
        { totalArticles := 2
          urlIndex := []
          stats := { byCategory := [], bySource := [], byMonth := [] }
          archives := [{ month := "2025-09", weeks := ["week-03.json"]
                         articleCount := 1 }] }
        { month := "2025-09"
          articles :=
            [SavedArticle.mk "aNew" (some "N") "https://ex.com/n" "d" "S"
              "2025-09-20" "Tech" ⟨2025, 9, 20⟩ SavedBy.manual] }
        [("2025-09",
          [("week-03.json",
            MonthFile.mk "2025-09"
              [SavedArticle.mk "aArch" (some "A") "https://ex.com/a" "d" "S"
                "2025-09-16" "Tech" ⟨2025, 9, 16⟩
                SavedBy.manual])])]).index.archives.find?
          (fun e => e.month == prevMonthKey ⟨2025, 10, 5⟩)).map
          (fun e =>
            { e with
              weeks := (weekNumsOf (prevMonthArticles ⟨2025, 10, 5⟩
                (StoreState.mk
                  { totalArticles := 2
                    urlIndex := []
                    stats := { byCategory := [], bySource := [], byMonth := [] }
                    archives := [{ month := "2025-09"
                                   weeks := ["week-03.json"]
                                   articleCount := 1 }] }
                  { month := "2025-09"
                    articles :=
                      [SavedArticle.mk "aNew" (some "N") "https://ex.com/n"
                        "d" "S" "2025-09-20" "Tech" ⟨2025, 9, 20⟩
                        SavedBy.manual] }
                  [("2025-09",
                    [("week-03.json",
                      MonthFile.mk "2025-09"
                        [SavedArticle.mk "aArch" (some "A") "https://ex.com/a"
                          "d" "S" "2025-09-16" "Tech" ⟨2025, 9, 16⟩
                          SavedBy.manual])])]))).map weekFileName
              articleCount := (prevMonthArticles ⟨2025, 10, 5⟩
                (StoreState.mk
                  { totalArticles := 2
                    urlIndex := []
                    stats := { byCategory := [], bySource := [], byMonth := [] }
                    archives := [{ month := "2025-09"
                                   weeks := ["week-03.json"]
                                   articleCount := 1 }] }
                  { month := "2025-09"
                    articles :=
                      [SavedArticle.mk "aNew" (some "N") "https://ex.com/n"
                        "d" "S" "2025-09-20" "Tech" ⟨2025, 9, 20⟩
                        SavedBy.manual] }
                  [("2025-09",
                    [("week-03.json",
                      MonthFile.mk "2025-09"
                        [SavedArticle.mk "aArch" (some "A") "https://ex.com/a"
                          "d" "S" "2025-09-16" "Tech" ⟨2025, 9, 16⟩
                          SavedBy.manual])])])).length }) ∧
      (∀ w ∈ weekNumsOf (prevMonthArticles ⟨2025, 10, 5⟩ (StoreState.mk
          { totalArticles := 2
            urlIndex := []
            stats := { byCategory := [], bySource := [], byMonth := [] }
            archives := [{ month := "2025-09", weeks := ["week-03.json"]
                           articleCount := 1 }] }
          { month := "2025-09"
            articles :=
              [SavedArticle.mk "aNew" (some "N") "https://ex.com/n" "d" "S"
                "2025-09-20" "Tech" ⟨2025, 9, 20⟩ SavedBy.manual] }
          [("2025-09",
            [("week-03.json",
              MonthFile.mk "2025-09"
                [SavedArticle.mk "aArch" (some "A") "https://ex.com/a" "d"
                  "S" "2025-09-16" "Tech" ⟨2025, 9, 16⟩
                  SavedBy.manual])])])),
        alookup ((alookup (archivePreviousMonth ⟨2025, 10, 5⟩ (StoreState.mk
            { totalArticles := 2
              urlIndex := []
              stats := { byCategory := [], bySource := [], byMonth := [] }
              archives := [{ month := "2025-09", weeks := ["week-03.json"]
                             articleCount := 1 }] }
            { month := "2025-09"
              articles :=
                [SavedArticle.mk "aNew" (some "N") "https://ex.com/n" "d" "S"
                  "2025-09-20" "Tech" ⟨2025, 9, 20⟩ SavedBy.manual] }
            [("2025-09",
              [("week-03.json",
                MonthFile.mk "2025-09"
                  [SavedArticle.mk "aArch" (some "A") "https://ex.com/a" "d"
                    "S" "2025-09-16" "Tech" ⟨2025, 9, 16⟩
                    SavedBy.manual])])])).2.archives
            (prevMonthKey ⟨2025, 10, 5⟩)).getD []) (weekFileName w)
          = some (weekFileOf (prevMonthKey ⟨2025, 10, 5⟩)
              (prevMonthArticles ⟨2025, 10, 5⟩ (StoreState.mk
                { totalArticles := 2
                  urlIndex := []
                  stats := { byCategory := [], bySource := [], byMonth := [] }
                  archives := [{ month := "2025-09"
                                 weeks := ["week-03.json"]
                                 articleCount := 1 }] }
                { month := "2025-09"
                  articles :=
                    [SavedArticle.mk "aNew" (some "N") "https://ex.com/n"
                      "d" "S" "2025-09-20" "Tech" ⟨2025, 9, 20⟩
                      SavedBy.manual] }
                [("2025-09",
                  [("week-03.json",
                    MonthFile.mk "2025-09"
                      [SavedArticle.mk "aArch" (some "A") "https://ex.com/a"
                        "d" "S" "2025-09-16" "Tech" ⟨2025, 9, 16⟩
                        SavedBy.manual])])])) w))) :=
  ⟨⟨by decide, by decide, by decide⟩,
    archive_rerun_replaces_entry ⟨2025, 10, 5⟩ _
      (by decide) (by decide) (by decide)⟩

/-! ## Stats consistency (C3) -/

/-- The strengthened stats invariant: the category and month sums both equal
`totalArticles`, every current-file record is counted (with the right key) by
the corresponding stat map, and the stat maps have unique keys (as JS object
keys are). -/
def StatsInv (idx : IndexData) (arts : List SavedArticle) : Prop :=
  sumVals idx.stats.byCategory = idx.totalArticles ∧
  sumVals idx.stats.byMonth = idx.totalArticles ∧
  (∀ c, ((arts.countP (fun a => a.category == c) : Int)
    ≤ lookupD idx.stats.byCategory c)) ∧
  (∀ m, ((arts.countP (fun a => getMonthKey a.savedAt == m) : Int)
    ≤ lookupD idx.stats.byMonth m)) ∧
  (idx.stats.byCategory.map Prod.fst).Nodup ∧
  (idx.stats.byMonth.map Prod.fst).Nodup

theorem statsInv_initial (now : DateM) :
    StatsInv (initialState now).index (initialState now).current.articles := by
  refine ⟨rfl, rfl, ?_, ?_, ?_, ?_⟩ <;> simp [initialState, freshIndex, lookupD]

theorem statsInv_addArticle (idx : IndexData) (arts : List SavedArticle)
    (a : InputArticle) (now : DateM) (sb : SavedBy)
    (h : StatsInv idx arts) :
    StatsInv (addArticleIdx idx a now) (arts ++ [mkSaved a now sb]) := by
  obtain ⟨hcs, hms, hcg, hmg, hcn, hmn⟩ := h
  refine ⟨?_, ?_, ?_, ?_, ?_, ?_⟩
  · simp [addArticleIdx, sumVals_incr, hcs]
  · simp [addArticleIdx, sumVals_incr, hms]
  · intro c
    rw [List.countP_append]
    by_cases hc : a.category = c
    · subst hc
      simp only [addArticleIdx]
      rw [lookupD_incr_self]
      have : ([mkSaved a now sb].countP
          (fun x => x.category == a.category)) = 1 := by
        simp [mkSaved]
      rw [this]
      push_cast
      linarith [hcg a.category]
    · simp only [addArticleIdx]
      rw [lookupD_incr_ne _ _ _ (fun hc' => hc hc'.symm)]
      have : ([mkSaved a now sb].countP (fun x => x.category == c)) = 0 := by
        simp [mkSaved, hc]
      rw [this]
      simpa using hcg c
  · intro m
    rw [List.countP_append]
    by_cases hm : getMonthKey now = m
    · subst hm
      simp only [addArticleIdx]
      rw [lookupD_incr_self]
      have : ([mkSaved a now sb].countP
          (fun x => getMonthKey x.savedAt == getMonthKey now)) = 1 := by
        simp [mkSaved]
      rw [this]
      push_cast
      linarith [hmg (getMonthKey now)]
    · simp only [addArticleIdx]
      rw [lookupD_incr_ne _ _ _ (fun hc' => hm hc'.symm)]
      have : ([mkSaved a now sb].countP
          (fun x => getMonthKey x.savedAt == m)) = 0 := by
        simp [mkSaved, hm]
      rw [this]
      simpa using hmg m
  · exact nodup_keys_incr _ _ hcn
  · exact nodup_keys_incr _ _ hmn

theorem statsInv_saveLoop (now : DateM) (sb : SavedBy) :
    ∀ (batch : List InputArticle) (ls : LoopState),
      StatsInv ls.idx ls.arts →
      StatsInv (saveLoop now sb batch ls).1.idx
        (saveLoop now sb batch ls).1.arts
  | [], ls, h => h
  | a :: rest, ls, h => by
    cases hk : hasKey ls.idx.urlIndex a.link
    · have := statsInv_saveLoop now sb rest
        { idx := addArticleIdx ls.idx a now
          arts := ls.arts ++ [mkSaved a now sb]
          saved := ls.saved + 1
          dups := ls.dups }
        (statsInv_addArticle ls.idx ls.arts a now sb h)
      simpa [saveLoop, hk] using this
    · have := statsInv_saveLoop now sb rest
        { ls with dups := ls.dups + 1 } h
      simpa [saveLoop, hk] using this

theorem statsInv_perm (idx : IndexData) (arts arts' : List SavedArticle)
    (hp : List.Perm arts' arts) (h : StatsInv idx arts) :
    StatsInv idx arts' := by
  obtain ⟨hcs, hms, hcg, hmg, hcn, hmn⟩ := h
  exact ⟨hcs, hms,
    fun c => by rw [hp.countP_eq]; exact hcg c,
    fun m => by rw [hp.countP_eq]; exact hmg m, hcn, hmn⟩

theorem statsInv_sublist (idx : IndexData) (arts arts' : List SavedArticle)
    (hs : List.Sublist arts' arts) (h : StatsInv idx arts) :
    StatsInv idx arts' := by
  obtain ⟨hcs, hms, hcg, hmg, hcn, hmn⟩ := h
  refine ⟨hcs, hms, fun c => le_trans ?_ (hcg c),
    fun m => le_trans ?_ (hmg m), hcn, hmn⟩
  · exact_mod_cast hs.countP_le _
  · exact_mod_cast hs.countP_le _

theorem statsInv_save (batch : List InputArticle) (sb : SavedBy) (now : DateM)
    (s : StoreState) (h : StatsInv s.index s.current.articles) :
    StatsInv (saveArticles batch sb now s).2.index
      (saveArticles batch sb now s).2.current.articles := by
  have hloop := statsInv_saveLoop now sb batch
    ⟨s.index, s.current.articles, 0, 0⟩ h
  by_cases hpos : 0 < (saveLoop now sb batch
      ⟨s.index, s.current.articles, 0, 0⟩).1.saved
  · rw [saveArticles_snd_of_pos batch sb now s hpos]
    exact statsInv_perm _ _ _ (List.perm_insertionSort _ _) hloop
  · rw [saveArticles_snd_of_zero batch sb now s hpos]
    exact h

theorem statsInv_archive (now : DateM) (s : StoreState)
    (h : StatsInv s.index s.current.articles) :
    StatsInv (archivePreviousMonth now s).2.index
      (archivePreviousMonth now s).2.current.articles := by
  by_cases hP : (prevMonthArticles now s).length = 0
  · simpa [archivePreviousMonth, hP] using h
  · have hs1 : (archivePreviousMonth now s).2 = archiveApply now s := by
      simp [archivePreviousMonth, hP]
    rw [hs1]
    show StatsInv { s.index with archives := _ } (currentMonthArticles now s)
    have hsub : List.Sublist (currentMonthArticles now s)
        s.current.articles := List.filter_sublist _
    obtain ⟨hcs, hms, hcg, hmg, hcn, hmn⟩ :=
      statsInv_sublist s.index _ _ hsub h
    exact ⟨hcs, hms, hcg, hmg, hcn, hmn⟩

theorem statsInv_clear (now : DateM) (s : StoreState) :
    StatsInv (clearAllArticles now s).index
      (clearAllArticles now s).current.articles :=
  statsInv_initial now

theorem statsInv_delete (id : String) (s : StoreState)
    (h : StatsInv s.index s.current.articles) :
    StatsInv (deleteArticle id s).2.index
      (deleteArticle id s).2.current.articles := by
  cases hfind : s.current.articles.find? (fun a => a.id == id) with
  | none => simpa [deleteArticle, hfind] using h
  | some a =>
    have hmem : a ∈ s.current.articles := List.mem_of_find?_eq_some hfind
    have hid : (a.id == id) = true := by
      simpa using List.find?_some hfind
    obtain ⟨hcs, hms, hcg, hmg, hcn, hmn⟩ := h
    have hsplit : ∀ (p : SavedArticle → Bool),
        s.current.articles.countP p
          = (s.current.articles.filter (fun x => x.id == id)).countP p
            + (s.current.articles.filter
                (fun x => !(x.id == id))).countP p := by
      intro p
      rw [← (List.filter_append_perm (fun x => x.id == id)
        s.current.articles).countP_eq p, List.countP_append]
    have hcatpos : 0 < s.current.articles.countP
        (fun x => x.category == a.category) :=
      List.countP_pos_iff.mpr ⟨a, hmem, by simp⟩
    have hmonpos : 0 < s.current.articles.countP
        (fun x => getMonthKey x.savedAt == getMonthKey a.savedAt) :=
      List.countP_pos_iff.mpr ⟨a, hmem, by simp⟩
    have hcnz : lookupD s.index.stats.byCategory a.category ≠ 0 := by
      have := hcg a.category
      intro hzero
      rw [hzero] at this
      omega
    have hmnz : lookupD s.index.stats.byMonth
        (getMonthKey a.savedAt) ≠ 0 := by
      have := hmg (getMonthKey a.savedAt)
      intro hzero
      rw [hzero] at this
      omega
    have hdel : (deleteArticle id s).2 =
        { index :=
            { s.index with
              urlIndex := removeKey s.index.urlIndex a.link
              totalArticles := s.index.totalArticles - 1
              stats :=
                { byCategory := decrDel s.index.stats.byCategory a.category
                  bySource := decrDel s.index.stats.bySource a.source
                  byMonth := decrDel s.index.stats.byMonth
                    (getMonthKey a.savedAt) } }
          current :=
            { s.current with
              articles := s.current.articles.filter
                (fun x => !(x.id == id)) }
          archives := s.archives } := by
      simp [deleteArticle, hfind]
    rw [hdel]
    refine ⟨?_, ?_, ?_, ?_, ?_, ?_⟩
    · show sumVals (decrDel s.index.stats.byCategory a.category)
        = s.index.totalArticles - 1
      rw [sumVals_decrDel _ _ hcnz, hcs]
    · show sumVals (decrDel s.index.stats.byMonth (getMonthKey a.savedAt))
        = s.index.totalArticles - 1
      rw [sumVals_decrDel _ _ hmnz, hms]
    · intro c
      show ((s.current.articles.filter (fun x => !(x.id == id))).countP
          (fun x => x.category == c) : Int)
        ≤ lookupD (decrDel s.index.stats.byCategory a.category) c
      by_cases hc : c = a.category
      · subst hc
        rw [lookupD_decrDel_self _ _ hcn hcnz]
        have hone : 0 < (s.current.articles.filter
            (fun x => x.id == id)).countP
            (fun x => x.category == a.category) :=
          List.countP_pos_iff.mpr
            ⟨a, List.mem_filter.mpr ⟨hmem, hid⟩, by simp⟩
        have := hsplit (fun x => x.category == a.category)
        have hle := hcg a.category
        omega
      · rw [lookupD_decrDel_ne _ _ _ hc]
        have hsub : (s.current.articles.filter
            (fun x => !(x.id == id))).countP (fun x => x.category == c)
            ≤ s.current.articles.countP (fun x => x.category == c) :=
          (List.filter_sublist _).countP_le _
        have := hcg c
        omega
    · intro m
      show ((s.current.articles.filter (fun x => !(x.id == id))).countP
          (fun x => getMonthKey x.savedAt == m) : Int)
        ≤ lookupD (decrDel s.index.stats.byMonth (getMonthKey a.savedAt)) m
      by_cases hm : m = getMonthKey a.savedAt
      · subst hm
        rw [lookupD_decrDel_self _ _ hmn hmnz]
        have hone : 0 < (s.current.articles.filter
            (fun x => x.id == id)).countP
            (fun x => getMonthKey x.savedAt == getMonthKey a.savedAt) :=
          List.countP_pos_iff.mpr
            ⟨a, List.mem_filter.mpr ⟨hmem, hid⟩, by simp⟩
        have := hsplit
          (fun x => getMonthKey x.savedAt == getMonthKey a.savedAt)
        have hle := hmg (getMonthKey a.savedAt)
        omega
      · rw [lookupD_decrDel_ne _ _ _ hm]
        have hsub : (s.current.articles.filter
            (fun x => !(x.id == id))).countP
            (fun x => getMonthKey x.savedAt == m)
            ≤ s.current.articles.countP
                (fun x => getMonthKey x.savedAt == m) :=
          (List.filter_sublist _).countP_le _
        have := hmg m
        omega
    · exact hcn.sublist (keys_decrDel_sublist _ _)
    · exact hmn.sublist (keys_decrDel_sublist _ _)

/-- The store states reachable from a freshly initialised store through the
public operations (`save`, `delete`, `archivePreviousMonth`, `clear`). -/
inductive Reachable : StoreState → Prop where
  | init (now : DateM) : Reachable (initialState now)
  | save (batch : List InputArticle) (sb : SavedBy) (now : DateM)
      (s : StoreState) : Reachable s →
      Reachable (saveArticles batch sb now s).2
  | delete (id : String) (s : StoreState) : Reachable s →
      Reachable (deleteArticle id s).2
  | archive (now : DateM) (s : StoreState) : Reachable s →
      Reachable (archivePreviousMonth now s).2
  | clear (now : DateM) (s : StoreState) : Reachable s →
      Reachable (clearAllArticles now s)

theorem reachable_statsInv (s : StoreState) (h : Reachable s) :
    StatsInv s.index s.current.articles := by
  induction h with
  | init now => exact statsInv_initial now
  | save batch sb now s _ ih => exact statsInv_save batch sb now s ih
  | delete id s _ ih => exact statsInv_delete id s ih
  | archive now s _ ih => exact statsInv_archive now s ih
  | clear now s _ => exact statsInv_clear now s

/-- C3: stats consistency.  In every reachable store state the sum of the
`byCategory` counts equals `totalRecords`, which equals the sum of the
`byMonth` counts; and every public operation (save, delete,
archivePreviousMonth, clear) leaves this equality intact. -/
theorem stats_consistency (s : StoreState) (h : Reachable s) :
    (sumVals s.index.stats.byCategory = s.index.totalArticles ∧
      sumVals s.index.stats.byMonth = s.index.totalArticles) ∧
    (∀ (batch : List InputArticle) (sb : SavedBy) (now : DateM),
      sumVals (saveArticles batch sb now s).2.index.stats.byCategory
          = (saveArticles batch sb now s).2.index.totalArticles ∧
      sumVals (saveArticles batch sb now s).2.index.stats.byMonth
          = (saveArticles batch sb now s).2.index.totalArticles) ∧
    (∀ id : String,
      sumVals (deleteArticle id s).2.index.stats.byCategory
          = (deleteArticle id s).2.index.totalArticles ∧
      sumVals (deleteArticle id s).2.index.stats.byMonth
          = (deleteArticle id s).2.index.totalArticles) ∧
    (∀ now : DateM,
      sumVals (archivePreviousMonth now s).2.index.stats.byCategory
          = (archivePreviousMonth now s).2.index.totalArticles ∧
      sumVals (archivePreviousMonth now s).2.index.stats.byMonth
          = (archivePreviousMonth now s).2.index.totalArticles) ∧
    (∀ now : DateM,
      sumVals (clearAllArticles now s).index.stats.byCategory
          = (clearAllArticles now s).index.totalArticles ∧
      sumVals (clearAllArticles now s).index.stats.byMonth
          = (clearAllArticles now s).index.totalArticles) := by
  have base := reachable_statsInv s h
  refine ⟨⟨base.1, base.2.1⟩, ?_, ?_, ?_, ?_⟩
  · intro batch sb now
    have hs := reachable_statsInv _ (Reachable.save batch sb now s h)
    exact ⟨hs.1, hs.2.1⟩
  · intro id
    have hs := reachable_statsInv _ (Reachable.delete id s h)
    exact ⟨hs.1, hs.2.1⟩
  · intro now
    have hs := reachable_statsInv _ (Reachable.archive now s h)
    exact ⟨hs.1, hs.2.1⟩
  · intro now
    have hs := reachable_statsInv _ (Reachable.clear now s h)
    exact ⟨hs.1, hs.2.1⟩

/-- Witness for `stats_consistency` at the freshly initialised store. -/
theorem stats_consistency_witness :
    Reachable (initialState ⟨2025, 10, 5⟩) ∧
    ((sumVals (initialState ⟨2025, 10, 5⟩).index.stats.byCategory
        = (initialState ⟨2025, 10, 5⟩).index.totalArticles ∧
      sumVals (initialState ⟨2025, 10, 5⟩).index.stats.byMonth
        = (initialState ⟨2025, 10, 5⟩).index.totalArticles) ∧
    (∀ (batch : List InputArticle) (sb : SavedBy) (now : DateM),
      sumVals (saveArticles batch sb now
            (initialState ⟨2025, 10, 5⟩)).2.index.stats.byCategory
          = (saveArticles batch sb now
              (initialState ⟨2025, 10, 5⟩)).2.index.totalArticles ∧
      sumVals (saveArticles batch sb now
            (initialState ⟨2025, 10, 5⟩)).2.index.stats.byMonth
          = (saveArticles batch sb now
              (initialState ⟨2025, 10, 5⟩)).2.index.totalArticles) ∧
    (∀ id : String,
      sumVals (deleteArticle id
            (initialState ⟨2025, 10, 5⟩)).2.index.stats.byCategory
          = (deleteArticle id
              (initialState ⟨2025, 10, 5⟩)).2.index.totalArticles ∧
      sumVals (deleteArticle id
            (initialState ⟨2025, 10, 5⟩)).2.index.stats.byMonth
          = (deleteArticle id
              (initialState ⟨2025, 10, 5⟩)).2.index.totalArticles) ∧
    (∀ now : DateM,
      sumVals (archivePreviousMonth now
            (initialState ⟨2025, 10, 5⟩)).2.index.stats.byCategory
          = (archivePreviousMonth now
              (initialState ⟨2025, 10, 5⟩)).2.index.totalArticles ∧
      sumVals (archivePreviousMonth now
            (initialState ⟨2025, 10, 5⟩)).2.index.stats.byMonth
          = (archivePreviousMonth now
              (initialState ⟨2025, 10, 5⟩)).2.index.totalArticles) ∧
    (∀ now : DateM,
      sumVals (clearAllArticles now
            (initialState ⟨2025, 10, 5⟩)).index.stats.byCategory
          = (clearAllArticles now
              (initialState ⟨2025, 10, 5⟩)).index.totalArticles ∧
      sumVals (clearAllArticles now
            (initialState ⟨2025, 10, 5⟩)).index.stats.byMonth
          = (clearAllArticles now
              (initialState ⟨2025, 10, 5⟩)).index.totalArticles)) :=
  ⟨Reachable.init ⟨2025, 10, 5⟩,
    stats_consistency (initialState ⟨2025, 10, 5⟩)
      (Reachable.init ⟨2025, 10, 5⟩)⟩

end FeedStorage
